import Mathlib

/-!
Shallow embedding of the core of the DPGO distributed pose-graph
optimization library (files `DPGO_utils.cpp`, `PGOAgent.cpp`,
`LiftedSEVariable.cpp`) together with proofs about the embedded
definitions.

Conventions used throughout this development:

* `double` arithmetic is embedded as exact rational arithmetic over `ℚ`;
  `size_t` quantities are embedded as `ℕ`, with explicit `% 2 ^ 64`
  arithmetic at the single place where the source relies on unsigned
  wrap-around (`first_pose_id - 1` in `read_g2o_file`).
* Eigen's SVD routines (`Eigen::JacobiSVD`) are third-party numerical
  black boxes; they are embedded as *oracle data*: a structure packaging
  the factors `U`, `S`, `V` returned for a given input matrix, together
  with the defining properties of a (thin or full) singular value
  decomposition.  The functions of the source that consume an SVD are
  functions of that oracle data.
* Code with assertion macros (`CHECK`, `CHECK_EQ`, `LOG(FATAL)`) is
  fallible: it is embedded as an `Option`-returning function which
  returns `none` exactly when an assertion would abort the process.
* Components of the repository whose sources are outside the covered
  files (the `PoseGraph` class internals, the ROPTLIB optimizer, the
  robust averaging routines, `RobustCost`) appear only through their
  interfaces; they are embedded as abstract oracle functions collected
  in an `Env` record, so every theorem below holds for any behaviour of
  those components.
-/

namespace DPGO

open Matrix

/-! ## Basic data model -/

/-- Unsigned 64-bit modulus: `size_t` arithmetic in `read_g2o_file` wraps
modulo `2 ^ 64`. -/
def W64 : ℕ := 2 ^ 64

/-- PoseID: `(robot_id, frame_id)` globally identifies a pose. -/
structure PoseID where
  robot_id : ℕ
  frame_id : ℕ
deriving DecidableEq

/-- Relative SE measurement as filled in by `read_g2o_file`
(`DPGO_utils.cpp`).  The raw rotation/translation payloads are not
needed by any claim about the parser and are omitted; endpoints,
precisions and weight flags are kept. -/
structure RelativeSEMeasurement where
  r1 : ℕ
  r2 : ℕ
  p1 : ℕ
  p2 : ℕ
  tau : ℚ
  kappa : ℚ
  weight : ℚ
  fixedWeight : Bool
deriving DecidableEq

/-! ## g2o parsing: precisions (C1)

`read_g2o_file` computes, for each edge line, the precision parameters
`tau` and `kappa` from the information-matrix entries of the line.  The
matrix inverse called on Eigen dense matrices is the exact inverse,
embedded here through the adjugate formula. -/

/-- Exact matrix inverse `(det M)⁻¹ • adjugate M`; this is the value
computed by Eigen's `.inverse()` on an invertible matrix. -/
def matInv {n : ℕ} (M : Matrix (Fin n) (Fin n) ℚ) : Matrix (Fin n) (Fin n) ℚ :=
  (M.det)⁻¹ • M.adjugate

/-- The translation information block read from an `EDGE_SE2` line:
`TranCov << I11, I12, I12, I22`. -/
def tranCov2 (I11 I12 I22 : ℚ) : Matrix (Fin 2) (Fin 2) ℚ :=
  !![I11, I12; I12, I22]

/-- The rotation information entry of an `EDGE_SE2` line, viewed as the
1×1 rotation information block of the 2D edge. -/
def rotCov2 (I33 : ℚ) : Matrix (Fin 1) (Fin 1) ℚ :=
  !![I33]

/-- The translation information block read from an `EDGE_SE3:QUAT` line:
`TranCov << I11, I12, I13, I12, I22, I23, I13, I23, I33`. -/
def tranCov3 (I11 I12 I13 I22 I23 I33 : ℚ) : Matrix (Fin 3) (Fin 3) ℚ :=
  !![I11, I12, I13; I12, I22, I23; I13, I23, I33]

/-- The rotation information block read from an `EDGE_SE3:QUAT` line:
`RotCov << I44, I45, I46, I45, I55, I56, I46, I56, I66`. -/
def rotCov3 (I44 I45 I46 I55 I56 I66 : ℚ) : Matrix (Fin 3) (Fin 3) ℚ :=
  !![I44, I45, I46; I45, I55, I56; I46, I56, I66]

/-- The `EDGE_SE2` branch of `read_g2o_file`: endpoints, precisions and
the fixed-weight flag stored for a 2D measurement line
(`DPGO_utils.cpp`, lines 146-181).  The parser stores
`tau = 2 / TranCov.inverse().trace()` and `kappa = I33`. -/
def parseEdgeSE2 (i j : ℕ) (I11 I12 I22 I33 : ℚ) : RelativeSEMeasurement where
  r1 := 0
  r2 := 0
  p1 := i
  p2 := j
  tau := 2 / (matInv (tranCov2 I11 I12 I22)).trace
  kappa := I33
  weight := 1
  fixedWeight := decide (i + 1 = j)

/-- The `EDGE_SE3:QUAT` branch of `read_g2o_file`: endpoints, precisions
and the fixed-weight flag stored for a 3D measurement line
(`DPGO_utils.cpp`, lines 183-234).  The parser stores
`tau = 3 / TranCov.inverse().trace()` and
`kappa = 3 / (2 * RotCov.inverse().trace())`. -/
def parseEdgeSE3 (i j : ℕ) (I11 I12 I13 I22 I23 I33 I44 I45 I46 I55 I56 I66 : ℚ) :
    RelativeSEMeasurement where
  r1 := 0
  r2 := 0
  p1 := i
  p2 := j
  tau := 3 / (matInv (tranCov3 I11 I12 I13 I22 I23 I33)).trace
  kappa := 3 / (2 * (matInv (rotCov3 I44 I45 I46 I55 I56 I66)).trace)
  weight := 1
  fixedWeight := decide (i + 1 = j)

/-- Precision formula of the specification: `τ = d / tr(Σₜ)` where `Σₜ`
is the inverse of the translation information block. -/
def specTau {n : ℕ} (d : ℕ) (SigmaT : Matrix (Fin n) (Fin n) ℚ) : ℚ :=
  (d : ℚ) / SigmaT.trace

/-- Precision formula of the specification: `κ = d / (2 · tr(Σᵣ))` where
`Σᵣ` is the inverse of the rotation information block. -/
def specKappa {n : ℕ} (d : ℕ) (SigmaR : Matrix (Fin n) (Fin n) ℚ) : ℚ :=
  (d : ℚ) / (2 * SigmaR.trace)

/-! ## g2o parsing: pose ID bookkeeping and reindexing (C7)

After the line loop, `read_g2o_file` takes the set of pose IDs seen on
edges, checks that they are consecutive, reindexes from zero when the
smallest ID is positive, and reports the number of distinct IDs.  The
embedding works on the list of already-parsed edge measurements (the
text-stream handling itself is I/O).  `LOG(FATAL)` aborts are `none`. -/

/-- The set `pose_ids` accumulated by `pose_ids.emplace(measurement.p1);
pose_ids.emplace(measurement.p2)` over all parsed measurements. -/
def poseIdSet (ms : List RelativeSEMeasurement) : Finset ℕ :=
  ms.foldr (fun m s => insert m.p1 (insert m.p2 s)) ∅

/-- The body of the consecutive-sequencing loop: `prev` holds the
previous pose ID (a `size_t`, hence the `% W64`), and each element of
the ordered set must equal `prev + 1`. -/
def consecGo (prev : ℕ) : List ℕ → Bool
  | [] => true
  | x :: xs => if x % W64 = (prev + 1) % W64 then consecGo (x % W64) xs else false

/-- The consecutive-sequencing check of `read_g2o_file` (lines 258-266):
`prev_pose_id` starts at `first_pose_id - 1` in `size_t` arithmetic and
the loop runs over the ordered set of pose IDs. -/
def consecCheck (first : ℕ) (l : List ℕ) : Bool :=
  consecGo ((first + (W64 - 1)) % W64) l

/-- Reindexing step applied to each measurement when the first pose ID
is nonzero: `measurement.p1 -= first_pose_id; measurement.p2 -= first_pose_id`. -/
def decrementPoseIds (first : ℕ) (m : RelativeSEMeasurement) : RelativeSEMeasurement :=
  { m with p1 := m.p1 - first, p2 := m.p2 - first }

/-- Post-loop logic of `read_g2o_file` (lines 255-282): compute the
first pose ID, check consecutive sequencing (aborting on failure),
reindex from zero when needed and return the measurements together with
`num_poses`.  Reading a file with no edge lines dereferences
`pose_ids.begin()` on an empty set in the source (undefined behaviour);
it is embedded as a failure. -/
def read_g2o_file (ms : List RelativeSEMeasurement) :
    Option (List RelativeSEMeasurement × ℕ) :=
  let S := poseIdSet ms
  if hS : S = ∅ then none
  else
    let first := S.min' (Finset.nonempty_of_ne_empty hS)
    if consecCheck first (S.sort (· ≤ ·)) then
      let ms' := if first ≠ 0 then ms.map (decrementPoseIds first) else ms
      some (ms', S.card)
    else none

/-! ## Manifold projections (C8, C5)

`projectToStiefelManifold` and `projectToRotationGroup`
(`DPGO_utils.cpp`, lines 490-512) consume the singular value
decomposition produced by `Eigen::JacobiSVD`.  The SVD is a third-party
numerical routine; it is embedded as oracle data: the factors returned
for the given input, packaged with the defining SVD properties. -/

/-- A thin singular value decomposition of an `r × d` matrix `M` as
computed by `Eigen::JacobiSVD` with `ComputeThinU | ComputeThinV`:
`M = U * S * Vᵀ` with `U` having orthonormal columns, `V` orthogonal and
`S` diagonal with nonnegative entries. -/
structure ThinSVD (r d : ℕ) (M : Matrix (Fin r) (Fin d) ℚ) where
  U : Matrix (Fin r) (Fin d) ℚ
  S : Matrix (Fin d) (Fin d) ℚ
  V : Matrix (Fin d) (Fin d) ℚ
  hU : Uᵀ * U = 1
  hV : Vᵀ * V = 1
  hS_diag : ∀ i j, i ≠ j → S i j = 0
  hS_nonneg : ∀ i, 0 ≤ S i i
  factor : M = U * S * Vᵀ

/-- Embedding of `projectToStiefelManifold` (lines 506-512): from the thin SVD of
`M`, return `svd.matrixU() * svd.matrixV().transpose()`. -/
def projectToStiefelManifold {r d : ℕ} {M : Matrix (Fin r) (Fin d) ℚ}
    (f : ThinSVD r d M) : Matrix (Fin r) (Fin d) ℚ :=
  f.U * f.Vᵀ

/-- A full singular value decomposition of a square `d × d` matrix `M`
as computed by `Eigen::JacobiSVD` with `ComputeFullU | ComputeFullV`. -/
structure FullSVD (d : ℕ) (M : Matrix (Fin d) (Fin d) ℚ) where
  U : Matrix (Fin d) (Fin d) ℚ
  S : Matrix (Fin d) (Fin d) ℚ
  V : Matrix (Fin d) (Fin d) ℚ
  hU : Uᵀ * U = 1
  hV : Vᵀ * V = 1
  hS_diag : ∀ i j, i ≠ j → S i j = 0
  hS_nonneg : ∀ i, 0 ≤ S i i
  factor : M = U * S * Vᵀ

/-- The diagonal sign matrix used to express "negate the last column of
`U`": right-multiplication by `flipLast d` negates column `d - 1`. -/
def flipLast (d : ℕ) : Matrix (Fin d) (Fin d) ℚ :=
  Matrix.diagonal (fun j => if (j : ℕ) = d - 1 then -1 else 1)

/-- Embedding of `projectToRotationGroup` (lines 490-504): from the full SVD of `M`,
return `U * Vᵀ` when `det U * det V > 0`, and otherwise `U' * Vᵀ` where
`U'` is `U` with its last column negated. -/
def projectToRotationGroup {d : ℕ} {M : Matrix (Fin d) (Fin d) ℚ}
    (f : FullSVD d M) : Matrix (Fin d) (Fin d) ℚ :=
  if 0 < f.U.det * f.V.det then f.U * f.Vᵀ
  else (f.U * flipLast d) * f.Vᵀ

/-- Membership in `SO(d)`: orthogonal with determinant `+1`. -/
def IsSOd {d : ℕ} (R : Matrix (Fin d) (Fin d) ℚ) : Prop :=
  Rᵀ * R = 1 ∧ R.det = 1

/-! ## Trajectory extraction (C5)

`PGOAgent::getTrajectoryInLocalFrame` and
`PGOAgent::getTrajectoryInGlobalFrame` (`PGOAgent.cpp`, lines 429-469).
The lifted pose array `X` is its blockwise content: per-pose Stiefel
blocks and translation columns (`LiftedSEVariable` stores exactly this
data column-concatenated).  The `PoseArray` accessors `rotation(i)` /
`translation(i)` are not among the covered sources; following the
specification of the data model they are embedded with value semantics
(each block is an independent `d×d` / `d`-vector).  The state guards of
the two methods (`mState == INITIALIZED`, global anchor present) are
preconditions; the embedding takes the guarded data directly. -/

/-- Blockwise content of a `LiftedPoseArray(r, d, n+1)`. -/
structure LiftedPoseArrayQ (r d n : ℕ) where
  rot : Fin (n + 1) → Matrix (Fin r) (Fin d) ℚ
  trans : Fin (n + 1) → (Fin r → ℚ)

/-- Blockwise content of a `PoseArray(d, n+1)`. -/
structure PoseArrayQ (d n : ℕ) where
  rot : Fin (n + 1) → Matrix (Fin d) (Fin d) ℚ
  trans : Fin (n + 1) → (Fin d → ℚ)

/-- Embedding of `getTrajectoryInLocalFrame` (lines 429-447): set
`T = X.rotation(0)ᵀ * X.getData()` blockwise, save `t0 = T.translation(0)`,
then project every rotation block to the rotation group and subtract
`t0` from every translation.  The SVD oracle supplies the decomposition
Eigen computes for each rotation block. -/
def getTrajectoryInLocalFrame {r d n : ℕ} (X : LiftedPoseArrayQ r d n)
    (svd : ∀ i : Fin (n + 1), FullSVD d ((X.rot 0)ᵀ * X.rot i)) :
    PoseArrayQ d n where
  rot := fun i => projectToRotationGroup (svd i)
  trans := fun i => (X.rot 0)ᵀ.mulVec (X.trans i) - (X.rot 0)ᵀ.mulVec (X.trans 0)

/-- Embedding of `getTrajectoryInGlobalFrame` (lines 449-469): with global anchor
`Xa = [Ya | pa]`, set `T = Ya.transpose() * X.getData()` blockwise and
`t0 = Ya.transpose() * pa`, then project every rotation block to the
rotation group and subtract `t0` from every translation. -/
def getTrajectoryInGlobalFrame {r d n : ℕ} (X : LiftedPoseArrayQ r d n)
    (Ya : Matrix (Fin r) (Fin d) ℚ) (pa : Fin r → ℚ)
    (svd : ∀ i : Fin (n + 1), FullSVD d (Yaᵀ * X.rot i)) :
    PoseArrayQ d n where
  rot := fun i => projectToRotationGroup (svd i)
  trans := fun i => Yaᵀ.mulVec (X.trans i) - Yaᵀ.mulVec pa

/-! ## Agent data model (`PGOAgent.h` / `PGOAgent.cpp`)

The agent state machine is embedded with the numeric pose payloads kept
abstract: `Mat` stands for the dense Eigen matrices holding lifted pose
arrays and `RC` for the `RobustCost` object.  All external computational
components (the ROPTLIB optimizer behind `QuadraticOptimizer`, the
`PoseGraph` data-matrix assembly, the robust averaging routines, the
C library random generator behind `ROPTLIB::StieVariable::RandInManifold`)
are oracle functions collected in `Env`; each theorem holds for every
behaviour of these oracles. -/

/-- Agent state: `WAIT_FOR_DATA → WAIT_FOR_INITIALIZATION → INITIALIZED`. -/
inductive PGOAgentState where
  | WAIT_FOR_DATA
  | WAIT_FOR_INITIALIZATION
  | INITIALIZED
deriving DecidableEq

/-- Robust cost type (`RobustCostParameters::Type`); only the L2 /
non-L2 distinction is observed by the agent code. -/
inductive RobustCostType where
  | L2
  | TLS
  | Huber
  | Tukey
  | GM
deriving DecidableEq

/-- The fields of `PGOAgentParameters` read by the embedded agent code. -/
structure PGOAgentParameters where
  d : ℕ
  r : ℕ
  numRobots : ℕ
  acceleration : Bool
  restartInterval : ℕ
  robustCostType : RobustCostType
  robustOptInnerIters : ℕ
  robustOptWarmStart : Bool
  robustOptMinConvergenceRatio : ℚ
  robustInitMinInliers : ℕ
  relChangeTol : ℚ
  maxNumIters : ℕ
  multirobotInit : Bool
deriving DecidableEq

/-- Status message `PGOAgentStatus`. -/
structure PGOAgentStatus where
  agentID : ℕ
  state : PGOAgentState
  instanceNumber : ℕ
  iterationNumber : ℕ
  readyToTerminate : Bool
  relativeChange : ℚ
deriving DecidableEq

/-- Observable content of the `PoseGraph` object held by the agent.  The
class implementation is outside the covered sources; the fields below
are its interface as used by `PGOAgent.cpp`: `n()`, `statistics()`,
`neighborPublicPoseIDs()` (backing `hasNeighborPose`), the neighbor pose
assignment `setNeighborPoses`, and the data-matrix cache flag toggled by
`clearDataMatrices` / `constructDataMatrices`. -/
structure PoseGraph (Mat : Type) where
  robot_id : ℕ
  r : ℕ
  d : ℕ
  nPoses : ℕ
  statsAcceptLoopClosures : ℚ
  statsRejectLoopClosures : ℚ
  statsTotalLoopClosures : ℚ
  neighborPublicPoses : List PoseID
  neighborPoses : List (PoseID × Mat)
  hasDataMatrices : Bool
deriving DecidableEq

/-- Embedding of `PoseGraph::setNeighborPoses`. -/
def PoseGraph.setNeighborPoses {Mat : Type} (pg : PoseGraph Mat)
    (dict : List (PoseID × Mat)) : PoseGraph Mat :=
  { pg with neighborPoses := dict }

/-- Embedding of `PoseGraph::clearDataMatrices`. -/
def PoseGraph.clearDataMatrices {Mat : Type} (pg : PoseGraph Mat) : PoseGraph Mat :=
  { pg with hasDataMatrices := false }

/-- Embedding of `PoseGraph::hasNeighborPose(nID)`: membership of the pose ID in the
graph's `neighborPublicPoseIDs`.  Modelled from the spec: the
`PoseGraph` implementation is outside the covered sources; the spec
defines the derived set `neighborPublicPoseIDs` and neighbor poses as
exactly the poses on other robots referenced by this robot's
inter-robot edges. -/
def PoseGraph.hasNeighborPose {Mat : Type} (pg : PoseGraph Mat) (nID : PoseID) : Bool :=
  decide (nID ∈ pg.neighborPublicPoses)

/-- Modelled from the spec: the `PoseGraph(id, r, d)` constructor (not
among the covered sources) creates an empty measurement store with no
poses, no neighbor bookkeeping and no cached data matrices. -/
def freshPoseGraph (Mat : Type) (id r d : ℕ) : PoseGraph Mat where
  robot_id := id
  r := r
  d := d
  nPoses := 0
  statsAcceptLoopClosures := 0
  statsRejectLoopClosures := 0
  statsTotalLoopClosures := 0
  neighborPublicPoses := []
  neighborPoses := []
  hasDataMatrices := false

/-- Fraction of loop closures that are either accepted or rejected, as
computed in `PGOAgent::iterate` from `mPoseGraph->statistics()`. -/
def convergedLoopClosureRatio {Mat : Type} (pg : PoseGraph Mat) : ℚ :=
  (pg.statsAcceptLoopClosures + pg.statsRejectLoopClosures) / pg.statsTotalLoopClosures

/-- Oracle functions for the external computational components used by
`PGOAgent.cpp`.  Every theorem about the agent holds for an arbitrary
`Env`, i.e. for any behaviour of these black boxes. -/
structure Env (Mat RC : Type) where
  /-- Fresh `LiftedPoseArray(r, d, n)` content. -/
  newLiftedPoseArray : ℕ → ℕ → ℕ → Mat
  /-- Result of `QuadraticOptimizer::optimize` on the problem built from
  the given pose graph, started from the given iterate. -/
  optimize : PoseGraph Mat → Mat → Mat
  /-- Success of `PoseGraph::constructDataMatrices`. -/
  constructDataMatricesOk : PoseGraph Mat → Bool
  /-- Embedding of `LiftedPoseArray::averageTranslationDistance`. -/
  averageTranslationDistance : Mat → Mat → ℚ
  /-- One step of the gamma recursion
  `γ ← (1 + sqrt(1 + 4 N² γ²)) / (2N)` (the square root is a `double`
  computation, kept abstract). -/
  gammaNext : ℕ → ℚ → ℚ
  /-- The linear combination `(1-α)·X + α·V` formed in `updateY`. -/
  nesterovY : ℚ → Mat → Mat → Mat
  /-- The linear combination `V + γ·(X - Y)` formed in `updateV`. -/
  nesterovV : ℚ → Mat → Mat → Mat → Mat
  /-- Embedding of `LiftedSEManifold(r, d, n).project`. -/
  projectManifold : ℕ → ℕ → ℕ → Mat → Mat
  /-- Effect of `PGOAgent::updateLoopClosuresWeights` on the pose graph:
  reweighting of private and shared loop closures from the robust cost,
  the iterate and the neighbor pose cache. -/
  reweight : RC → PoseGraph Mat → Mat → List (PoseID × Mat) → PoseGraph Mat
  /-- Embedding of `RobustCost::update` (GNC schedule step). -/
  rcUpdate : RC → RC
  /-- Embedding of `RobustCost::reset`. -/
  rcReset : RC → RC
  /-- The matrix drawn by `ROPTLIB::StieVariable(r, d).RandInManifold()`
  as a function of the C library generator seed and the dimensions
  `(d, r)`.  Modelled from the spec: the random-in-manifold primitive is
  outside the covered sources and must be a deterministic function of
  the seeded generator state for reproducibility. -/
  randGen : ℕ → ℕ → ℕ → Mat
  /-- Outcome of `computeRobustNeighborTransformTwoStage` given the
  neighbor ID, the received pose dictionary, the lifting matrix, the
  local initialization and the pose graph: `some T` when robust
  alignment succeeds with transform `T`, `none` otherwise. -/
  alignment : ℕ → List (PoseID × Mat) → Option Mat → Option Mat → PoseGraph Mat → Option Mat
  /-- The loop applying `T_world_robot` to every pose of the local
  trajectory estimate in `initializeInGlobalFrame`. -/
  applyGlobalTransform : Mat → Mat → Mat
  /-- The lifting product `YLift * T.getData()`. -/
  liftData : Mat → Mat → Mat

/-- The `PGOAgent` fields touched by the embedded member functions. -/
structure PGOAgent (Mat RC : Type) where
  mID : ℕ
  d : ℕ
  r : ℕ
  mParams : PGOAgentParameters
  mState : PGOAgentState
  mStatus : PGOAgentStatus
  mRobustCost : RC
  mPoseGraph : PoseGraph Mat
  mInstanceNumber : ℕ
  mIterationNumber : ℕ
  mNumPosesReceived : ℕ
  gamma : ℚ
  alpha : ℚ
  X : Mat
  Y : Mat
  V : Mat
  XPrev : Mat
  YLift : Option Mat
  XInit : Option Mat
  TLocalInit : Option Mat
  globalAnchor : Option Mat
  neighborPoseDict : List (PoseID × Mat)
  neighborAuxPoseDict : List (PoseID × Mat)
  mTeamStatus : List (ℕ × PGOAgentStatus)
  mOptimizationRequested : Bool
  mPublishPublicPosesRequested : Bool
  mPublishWeightsRequested : Bool
deriving DecidableEq

variable {Mat RC : Type}

/-- Embedding of `fixedStiefelVariable(d, r)` (`DPGO_utils.cpp`, lines 514-519):
`std::srand(1)` resets the C library generator to the constant seed 1,
then `RandInManifold` draws a matrix from that state, so the result is
the oracle's output at seed 1 and dimensions `(d, r)`. -/
def fixedStiefelVariable (env : Env Mat RC) (d r : ℕ) : Mat :=
  env.randGen 1 d r

/-- Embedding of `PGOAgent::setLiftingMatrix` (dimension assertions are on the typed
payload, which is abstract here). -/
def setLiftingMatrix (a : PGOAgent Mat RC) (M : Mat) : PGOAgent Mat RC :=
  { a with YLift := some M }

/-- The `PGOAgent` constructor (`PGOAgent.cpp`, lines 29-43): all
counters zero, state `WAIT_FOR_DATA`, fresh one-pose iterate copied into
`Y`, `V`, `XPrev`, fresh pose graph, and — for robot 0 only —
`setLiftingMatrix(fixedStiefelVariable(d, r))`. -/
def mkPGOAgent (env : Env Mat RC) (rc0 : RC) (ID : ℕ) (params : PGOAgentParameters) :
    PGOAgent Mat RC :=
  let X0 := env.newLiftedPoseArray params.r params.d 1
  let a : PGOAgent Mat RC :=
    { mID := ID
      d := params.d
      r := params.r
      mParams := params
      mState := PGOAgentState.WAIT_FOR_DATA
      mStatus :=
        { agentID := ID, state := PGOAgentState.WAIT_FOR_DATA, instanceNumber := 0,
          iterationNumber := 0, readyToTerminate := false, relativeChange := 0 }
      mRobustCost := rc0
      mPoseGraph := freshPoseGraph Mat ID params.r params.d
      mInstanceNumber := 0
      mIterationNumber := 0
      mNumPosesReceived := 0
      gamma := 0
      alpha := 0
      X := X0
      Y := X0
      V := X0
      XPrev := X0
      YLift := none
      XInit := none
      TLocalInit := none
      globalAnchor := none
      neighborPoseDict := []
      neighborAuxPoseDict := []
      mTeamStatus := []
      mOptimizationRequested := false
      mPublishPublicPosesRequested := false
      mPublishWeightsRequested := false }
  if ID = 0 then setLiftingMatrix a (fixedStiefelVariable env params.d params.r) else a

/-- Embedding of `PGOAgent::reset` (`PGOAgent.cpp`, lines 534-577), logging and
thread shutdown omitted (I/O only): bump the instance number, zero the
iteration counters, return to `WAIT_FOR_DATA` with a fresh status, clear
the neighbor caches and the team status, reset the robust cost and the
optional initializations, clear the request flags, and replace the
iterate and the pose graph by fresh one-pose objects.  The lifting
matrix `YLift` is not touched ("Assume that the old lifting matrix can
still be used"). -/
def reset (env : Env Mat RC) (a : PGOAgent Mat RC) : PGOAgent Mat RC :=
  { a with
    mInstanceNumber := a.mInstanceNumber + 1
    mIterationNumber := 0
    mNumPosesReceived := 0
    mState := PGOAgentState.WAIT_FOR_DATA
    mStatus :=
      { agentID := a.mID, state := PGOAgentState.WAIT_FOR_DATA,
        instanceNumber := a.mInstanceNumber + 1, iterationNumber := 0,
        readyToTerminate := false, relativeChange := 0 }
    neighborPoseDict := []
    neighborAuxPoseDict := []
    mTeamStatus := []
    mRobustCost := env.rcReset a.mRobustCost
    globalAnchor := none
    TLocalInit := none
    XInit := none
    mOptimizationRequested := false
    mPublishPublicPosesRequested := false
    mPublishWeightsRequested := false
    X := env.newLiftedPoseArray a.r a.d 1
    mPoseGraph := freshPoseGraph Mat a.mID a.r a.d }

/-! ## Iteration engine (`PGOAgent.cpp`, lines 579-926) -/

/-- Embedding of `num_poses()` = `mPoseGraph->n()`. -/
def numPoses (a : PGOAgent Mat RC) : ℕ :=
  a.mPoseGraph.nPoses

/-- Embedding of `PGOAgent::shouldUpdateLoopClosureWeights` (lines 921-926): never
with the L2 cost, otherwise every `robustOptInnerIters` iterations. -/
def shouldUpdateLoopClosureWeights (a : PGOAgent Mat RC) : Bool :=
  if a.mParams.robustCostType = RobustCostType.L2 then false
  else decide ((a.mIterationNumber + 1) % a.mParams.robustOptInnerIters = 0)

/-- Embedding of `PGOAgent::shouldRestart` (lines 801-806). -/
def shouldRestart (a : PGOAgent Mat RC) : Bool :=
  if a.mParams.acceleration then
    decide ((a.mIterationNumber + 1) % a.mParams.restartInterval = 0)
  else false

/-- Embedding of `PGOAgent::initializeAcceleration` (lines 822-831): `CHECK` of the
acceleration flag (`none` on failure), then — only when
`INITIALIZED` — save `XPrev`, zero `γ`, `α` and copy `X` into `V`, `Y`. -/
def initAcceleration (a : PGOAgent Mat RC) : Option (PGOAgent Mat RC) :=
  if a.mParams.acceleration then
    if a.mState = PGOAgentState.INITIALIZED then
      some { a with XPrev := a.X, gamma := 0, alpha := 0, V := a.X, Y := a.X }
    else some a
  else none

/-- Embedding of `PGOAgent::updateLoopClosuresWeights` (lines 928-995): guarded by
`CHECK(mState == INITIALIZED)`; clears the cached data matrices and
reweights the loop closures from the robust cost, the iterate and the
neighbor pose cache (the per-edge loop is the `reweight` oracle, the
`PoseGraph` and `RobustCost` internals being outside the covered
sources); finally requests weight publication. -/
def updateLoopClosuresWeights (env : Env Mat RC) (a : PGOAgent Mat RC) :
    Option (PGOAgent Mat RC) :=
  if a.mState = PGOAgentState.INITIALIZED then
    some { a with
      mPoseGraph := env.reweight a.mRobustCost a.mPoseGraph.clearDataMatrices
        a.X a.neighborPoseDict
      mPublishWeightsRequested := true }
  else none

/-- Embedding of `PGOAgent::updateGamma` (lines 833-837). -/
def updateGamma (env : Env Mat RC) (a : PGOAgent Mat RC) : Option (PGOAgent Mat RC) :=
  if a.mParams.acceleration ∧ a.mState = PGOAgentState.INITIALIZED then
    some { a with gamma := env.gammaNext a.mParams.numRobots a.gamma }
  else none

/-- Embedding of `PGOAgent::updateAlpha` (lines 839-843): `α = 1 / (γ N)`. -/
def updateAlpha (a : PGOAgent Mat RC) : Option (PGOAgent Mat RC) :=
  if a.mParams.acceleration ∧ a.mState = PGOAgentState.INITIALIZED then
    some { a with alpha := 1 / (a.gamma * (a.mParams.numRobots : ℚ)) }
  else none

/-- Embedding of `PGOAgent::updateY` (lines 845-851): project `(1-α)·X + α·V` onto
the manifold. -/
def updateY (env : Env Mat RC) (a : PGOAgent Mat RC) : Option (PGOAgent Mat RC) :=
  if a.mParams.acceleration ∧ a.mState = PGOAgentState.INITIALIZED then
    some { a with
      Y := env.projectManifold a.r a.d (numPoses a) (env.nesterovY a.alpha a.X a.V) }
  else none

/-- Embedding of `PGOAgent::updateV` (lines 853-859): project `V + γ·(X - Y)` onto
the manifold. -/
def updateV (env : Env Mat RC) (a : PGOAgent Mat RC) : Option (PGOAgent Mat RC) :=
  if a.mParams.acceleration ∧ a.mState = PGOAgentState.INITIALIZED then
    some { a with
      V := env.projectManifold a.r a.d (numPoses a) (env.nesterovV a.gamma a.V a.X a.Y) }
  else none

/-- Embedding of `PGOAgent::updateX` (lines 861-919).  Without optimization: copy
`Y` into `X` in accelerated mode and report success.  With optimization:
assert the acceleration flag and the `INITIALIZED` state, install the
relevant neighbor pose dictionary in the pose graph, skip the step with
`success = false` when the data matrices cannot be constructed, and
otherwise run the optimizer from `Y` (accelerated) or `X`. -/
def updateX (env : Env Mat RC) (a : PGOAgent Mat RC) (doOptimization acceleration : Bool) :
    Option (Bool × PGOAgent Mat RC) :=
  if doOptimization = false then
    some (true, if acceleration then { a with X := a.Y } else a)
  else if acceleration ∧ a.mParams.acceleration = false then none
  else if a.mState ≠ PGOAgentState.INITIALIZED then none
  else
    let pg := a.mPoseGraph.setNeighborPoses
      (if acceleration then a.neighborAuxPoseDict else a.neighborPoseDict)
    if env.constructDataMatricesOk pg = false then
      some (false, { a with mPoseGraph := pg })
    else
      let pg := { pg with hasDataMatrices := true }
      let X0 := if acceleration then a.Y else a.X
      some (true, { a with mPoseGraph := pg, X := env.optimize pg X0 })

/-- Embedding of `PGOAgent::restartNesterovAcceleration` (lines 808-820): in
accelerated `INITIALIZED` mode, restore `X ← XPrev`, re-run one
non-accelerated `updateX`, and set `V ← X`, `Y ← X`, `γ = α = 0`. -/
def restartNesterovAcceleration (env : Env Mat RC) (a : PGOAgent Mat RC)
    (doOptimization : Bool) : Option (PGOAgent Mat RC) :=
  if a.mParams.acceleration = true ∧ a.mState = PGOAgentState.INITIALIZED then do
    let a1 := { a with X := a.XPrev }
    let (_, a2) ← updateX env a1 doOptimization false
    some { a2 with V := a2.X, Y := a2.X, gamma := 0, alpha := 0 }
  else some a

/-- The measurement-weight block at the top of `PGOAgent::iterate`
(lines 588-603): when a reweighting round is due, update the weights,
advance the GNC schedule, restore the initial guess unless warm-starting
(asserting that it exists), and re-initialize acceleration. -/
def gncStep (env : Env Mat RC) (a : PGOAgent Mat RC) : Option (PGOAgent Mat RC) :=
  if shouldUpdateLoopClosureWeights a then do
    let a ← updateLoopClosuresWeights env a
    let a := { a with mRobustCost := env.rcUpdate a.mRobustCost }
    let a ←
      if a.mParams.robustOptWarmStart then some a
      else
        match a.XInit with
        | none => none
        | some xi => some { a with X := xi }
    if a.mParams.acceleration then initAcceleration a else some a
  else some a

/-- The optimization part of `PGOAgent::iterate` in the `INITIALIZED`
state (lines 610-626): the accelerated Nesterov update with restart
check, or the vanilla update; returns the `success` flag of the
(first) `updateX` call together with the updated agent. -/
def iterOptStep (env : Env Mat RC) (a : PGOAgent Mat RC) (doOptimization : Bool) :
    Option (Bool × PGOAgent Mat RC) :=
  if a.mParams.acceleration then do
    let a ← updateGamma env a
    let a ← updateAlpha a
    let a ← updateY env a
    let (success, a) ← updateX env a doOptimization true
    let a ← updateV env a
    let a ← if shouldRestart a then restartNesterovAcceleration env a doOptimization
            else some a
    some (success, { a with mPublishPublicPosesRequested := true })
  else do
    let (success, a) ← updateX env a doOptimization false
    some (success, if doOptimization then { a with mPublishPublicPosesRequested := true }
                   else a)

/-- The status update at the end of `PGOAgent::iterate` (lines 629-654):
refresh the status fields, compute `relativeChange`, and clear
`readyToTerminate` when the optimization failed, when the change is
above `relChangeTol`, or when the converged-loop-closure ratio is below
`robustOptMinConvergenceRatio`. -/
def statusUpdate (env : Env Mat RC) (a : PGOAgent Mat RC) (success : Bool) :
    PGOAgent Mat RC :=
  let relativeChange := env.averageTranslationDistance a.X a.XPrev
  let ratio := convergedLoopClosureRatio a.mPoseGraph
  let readyToTerminate := true
  let readyToTerminate := if success = false then false else readyToTerminate
  let readyToTerminate :=
    if relativeChange > a.mParams.relChangeTol then false else readyToTerminate
  let readyToTerminate :=
    if ratio < a.mParams.robustOptMinConvergenceRatio then false else readyToTerminate
  { a with mStatus :=
    { agentID := a.mID
      state := a.mState
      instanceNumber := a.mInstanceNumber
      iterationNumber := a.mIterationNumber
      readyToTerminate := readyToTerminate
      relativeChange := relativeChange } }

/-- Embedding of `PGOAgent::iterate` (lines 579-656): bump the iteration counter, run
the reweighting block when due, and — in the `INITIALIZED` state — save
`XPrev`, perform the (possibly accelerated) block update and, when
optimizing, refresh the status.  The returned `Bool` is the `success`
flag of the optimization step (meaningful only in the `INITIALIZED`
state, where the source declares it). -/
def iterate (env : Env Mat RC) (a : PGOAgent Mat RC) (doOptimization : Bool) :
    Option (Bool × PGOAgent Mat RC) := do
  let a := { a with mIterationNumber := a.mIterationNumber + 1 }
  let a ← gncStep env a
  if a.mState = PGOAgentState.INITIALIZED then do
    let a := { a with XPrev := a.X }
    let (success, a) ← iterOptStep env a doOptimization
    if doOptimization then some (success, statusUpdate env a success)
    else some (success, a)
  else some (true, a)

/-! ## Neighbor pose updates and global-frame initialization
(`PGOAgent.cpp`, lines 320-427) -/

/-- Lookup in `mTeamStatus` (`hasNeighborStatus` / `getNeighborStatus`). -/
def lookupStatus (l : List (ℕ × PGOAgentStatus)) (id : ℕ) : Option PGOAgentStatus :=
  (l.find? (fun p => p.1 = id)).map Prod.snd

/-- Embedding of `std::map` assignment `dict[k] = v`: replace any binding of `k` and
add the new one. -/
def dictInsert (k : PoseID) (v : Mat) (d : List (PoseID × Mat)) : List (PoseID × Mat) :=
  (k, v) :: d.filter (fun p => p.1 ≠ k)

/-- Embedding of `PGOAgent::initializeInGlobalFrame` (lines 320-375), thread and
logging effects omitted: assert the lifting matrix, clear the neighbor
pose caches, apply the global transform to the local trajectory
estimate (asserting it exists), lift the result into `X` and save it as
`XInit`, move to `INITIALIZED`, and re-initialize acceleration when
enabled. -/
def initInGlobalFrame (env : Env Mat RC) (a : PGOAgent Mat RC) (T_world_robot : Mat) :
    Option (PGOAgent Mat RC) := do
  let ylift ← a.YLift
  let a := { a with neighborPoseDict := [], neighborAuxPoseDict := [] }
  let tlocal ← a.TLocalInit
  let T := env.applyGlobalTransform T_world_robot tlocal
  let newX := env.liftData ylift T
  let a := { a with X := newX, XInit := some newX }
  let a := if a.mState = PGOAgentState.INITIALIZED then a
           else { a with mState := PGOAgentState.INITIALIZED }
  if a.mParams.acceleration then initAcceleration a else some a

/-- The save loop of `updateNeighborPoses` / `updateAuxNeighborPoses`
(lines 389-403 and 412-426): for each received entry, assert that the
pose belongs to the sending neighbor, count it, skip it unless it is one
of the pose graph's neighbor public poses, and store it only when the
`insertOk` condition (both agents `INITIALIZED`) holds. -/
def savePoses (pubIDs : List PoseID) (neighborID : ℕ) (insertOk : Bool) :
    List (PoseID × Mat) → List (PoseID × Mat) × ℕ → Option (List (PoseID × Mat) × ℕ)
  | [], acc => some acc
  | (nID, var) :: rest, (dict, cnt) =>
    if nID.robot_id ≠ neighborID then none
    else
      let cnt := cnt + 1
      if ¬ (nID ∈ pubIDs) then savePoses pubIDs neighborID insertOk rest (dict, cnt)
      else if insertOk then
        savePoses pubIDs neighborID insertOk rest (dictInsert nID var dict, cnt)
      else savePoses pubIDs neighborID insertOk rest (dict, cnt)

/-- Embedding of `PGOAgent::updateNeighborPoses` (lines 377-404): assert the sender
is not this agent, ignore senders with no recorded status, attempt
robust global-frame initialization when waiting for it, then run the
save loop on `neighborPoseDict`. -/
def updateNeighborPoses (env : Env Mat RC) (a : PGOAgent Mat RC) (neighborID : ℕ)
    (poseDict : List (PoseID × Mat)) : Option (PGOAgent Mat RC) :=
  if neighborID = a.mID then none
  else
    match lookupStatus a.mTeamStatus neighborID with
    | none => some a
    | some nbrStatus => do
      let a ←
        if a.mState = PGOAgentState.WAIT_FOR_INITIALIZATION then
          match env.alignment neighborID poseDict a.YLift a.TLocalInit a.mPoseGraph with
          | some T => initInGlobalFrame env a T
          | none => some a
        else some a
      let insertOk := decide (a.mState = PGOAgentState.INITIALIZED) &&
        decide (nbrStatus.state = PGOAgentState.INITIALIZED)
      let (dict, cnt) ← savePoses a.mPoseGraph.neighborPublicPoses neighborID insertOk
        poseDict (a.neighborPoseDict, a.mNumPosesReceived)
      some { a with neighborPoseDict := dict, mNumPosesReceived := cnt }

/-- Embedding of `PGOAgent::updateAuxNeighborPoses` (lines 406-427): assert the
acceleration flag and that the sender is not this agent, ignore senders
with no recorded status, then run the save loop on
`neighborAuxPoseDict`. -/
def updateAuxNeighborPoses (a : PGOAgent Mat RC) (neighborID : ℕ)
    (poseDict : List (PoseID × Mat)) : Option (PGOAgent Mat RC) :=
  if a.mParams.acceleration = false then none
  else if neighborID = a.mID then none
  else
    match lookupStatus a.mTeamStatus neighborID with
    | none => some a
    | some nbrStatus => do
      let insertOk := decide (a.mState = PGOAgentState.INITIALIZED) &&
        decide (nbrStatus.state = PGOAgentState.INITIALIZED)
      let (dict, cnt) ← savePoses a.mPoseGraph.neighborPublicPoses neighborID insertOk
        poseDict (a.neighborAuxPoseDict, a.mNumPosesReceived)
      some { a with neighborAuxPoseDict := dict, mNumPosesReceived := cnt }

/-! ## Claim C1: parsed precisions match the information-matrix formulas -/

theorem trace_matInv_one_dim (a : ℚ) : (matInv (rotCov2 a)).trace = a⁻¹ := by
  simp [matInv, rotCov2, Matrix.det_fin_one, Matrix.adjugate_fin_one,
    Matrix.trace_smul, Matrix.trace_one]

/-- C1: for a 2D (`EDGE_SE2`, `d = 2`) and a 3D (`EDGE_SE3:QUAT`,
`d = 3`) measurement line, the stored precisions equal
`κ = d / (2·tr(Σᵣ))` and `τ = d / tr(Σₜ)` where `Σ` is the inverse of
the corresponding information block (for the 2D line the rotation
information block is the 1×1 block `[I33]`, and the code's stored
`κ = I33` equals the formula whenever `I33 ≠ 0`). -/
theorem g2o_precisions_from_information_matrix (i j : ℕ)
    (I11 I12 I22 I33 J11 J12 J13 J22 J23 J33 J44 J45 J46 J55 J56 J66 : ℚ)
    (h33 : I33 ≠ 0) :
    ((parseEdgeSE2 i j I11 I12 I22 I33).tau =
        specTau 2 (matInv (tranCov2 I11 I12 I22)) ∧
      (parseEdgeSE2 i j I11 I12 I22 I33).kappa =
        specKappa 2 (matInv (rotCov2 I33))) ∧
    ((parseEdgeSE3 i j J11 J12 J13 J22 J23 J33 J44 J45 J46 J55 J56 J66).tau =
        specTau 3 (matInv (tranCov3 J11 J12 J13 J22 J23 J33)) ∧
      (parseEdgeSE3 i j J11 J12 J13 J22 J23 J33 J44 J45 J46 J55 J56 J66).kappa =
        specKappa 3 (matInv (rotCov3 J44 J45 J46 J55 J56 J66))) := by
  refine ⟨⟨?_, ?_⟩, ?_, ?_⟩
  · norm_num [parseEdgeSE2, specTau]
  · rw [specKappa, trace_matInv_one_dim]
    show I33 = (2 : ℕ) / (2 * I33⁻¹)
    rw [eq_div_iff (by simpa using h33)]
    push_cast
    field_simp
  · norm_num [parseEdgeSE3, specTau]
  · norm_num [parseEdgeSE3, specKappa]

/-- Witness for C1 at concrete information-matrix entries. -/
theorem g2o_precisions_witness :
    (2 : ℚ) ≠ 0 ∧
    (((parseEdgeSE2 0 1 1 0 1 2).tau = specTau 2 (matInv (tranCov2 1 0 1)) ∧
       (parseEdgeSE2 0 1 1 0 1 2).kappa = specKappa 2 (matInv (rotCov2 2))) ∧
      ((parseEdgeSE3 0 1 1 0 0 1 0 1 1 0 0 1 0 1).tau =
          specTau 3 (matInv (tranCov3 1 0 0 1 0 1)) ∧
        (parseEdgeSE3 0 1 1 0 0 1 0 1 1 0 0 1 0 1).kappa =
          specKappa 3 (matInv (rotCov3 1 0 0 1 0 1)))) :=
  ⟨by norm_num,
    g2o_precisions_from_information_matrix 0 1 1 0 1 2 1 0 0 1 0 1 1 0 0 1 0 1
      (by norm_num)⟩

/-! ## Claim C7: pose ID reindexing in the g2o loader -/

theorem W64_pos : 0 < W64 := by norm_num [W64]

theorem W64_eq : W64 = 18446744073709551616 := by norm_num [W64]

theorem mem_poseIdSet {ms : List RelativeSEMeasurement} {x : ℕ} :
    x ∈ poseIdSet ms ↔ ∃ m ∈ ms, x = m.p1 ∨ x = m.p2 := by
  induction ms with
  | nil => simp [poseIdSet]
  | cons m rest ih =>
    unfold poseIdSet at ih ⊢
    simp only [List.foldr_cons, Finset.mem_insert, ih, List.mem_cons]
    constructor
    · rintro (h | h | ⟨m', hm', hx⟩)
      · exact ⟨m, Or.inl rfl, Or.inl h⟩
      · exact ⟨m, Or.inl rfl, Or.inr h⟩
      · exact ⟨m', Or.inr hm', hx⟩
    · rintro ⟨m', hm' | hm', hx⟩
      · subst hm'
        tauto
      · exact Or.inr (Or.inr ⟨m', hm', hx⟩)

theorem poseIdSet_lt {ms : List RelativeSEMeasurement}
    (hb : ∀ m ∈ ms, m.p1 < W64 ∧ m.p2 < W64) :
    ∀ x ∈ poseIdSet ms, x < W64 := by
  intro x hx
  obtain ⟨m, hm, hx⟩ := mem_poseIdSet.mp hx
  rcases hx with h | h <;> rw [h]
  · exact (hb m hm).1
  · exact (hb m hm).2

theorem consecGo_range' (len : ℕ) :
    ∀ start : ℕ, 0 < start → start + len ≤ W64 →
      consecGo (start - 1) (List.range' start len) = true := by
  induction len with
  | zero =>
    intro start h0 hle
    rfl
  | succ n ih =>
    intro start h0 hle
    rw [List.range'_succ]
    unfold consecGo
    have hc : start % W64 = (start - 1 + 1) % W64 := by
      rw [Nat.sub_add_cancel h0]
    rw [if_pos hc]
    have hlt : start < W64 := by omega
    rw [Nat.mod_eq_of_lt hlt]
    exact ih (start + 1) (by omega) (by omega)

theorem consecGo_chain (l : List ℕ) :
    ∀ prev : ℕ, prev < W64 → (∀ x ∈ l, x < W64) →
      List.Chain (· < ·) prev l → consecGo prev l = true →
      l = List.range' (prev + 1) l.length := by
  induction l with
  | nil =>
    intro prev _ _ _ _
    rfl
  | cons y ys ih =>
    intro prev hp hb hch hgo
    unfold consecGo at hgo
    split at hgo
    next hcond =>
      have hylt : y < W64 := hb y (List.mem_cons_self y ys)
      have hprevy : prev < y := (List.chain_cons.mp hch).1
      have hy : y = prev + 1 := by
        rw [Nat.mod_eq_of_lt hylt] at hcond
        by_cases hpe : prev + 1 < W64
        · rwa [Nat.mod_eq_of_lt hpe] at hcond
        · have hpw : prev + 1 = W64 := by omega
          rw [hpw, Nat.mod_self] at hcond
          omega
      subst hy
      have htail := ih (prev + 1) (by omega)
        (fun x hx => hb x (List.mem_cons_of_mem _ hx))
        (List.chain_cons.mp hch).2
        (by rwa [Nat.mod_eq_of_lt hylt] at hgo)
      rw [List.length_cons, List.range'_succ]
      exact congrArg (List.cons (prev + 1)) htail
    next hcond => exact Bool.noConfusion hgo

theorem sort_Icc_eq_range' {k n : ℕ} {S : Finset ℕ} (hS : S = Finset.Icc k (k + n)) :
    S.sort (· ≤ ·) = List.range' k (n + 1) := by
  apply List.eq_of_perm_of_sorted (r := (· ≤ ·))
  · apply List.perm_of_nodup_nodup_toFinset_eq (Finset.sort_nodup _ _)
      (List.nodup_range' _ _)
    ext x
    rw [List.mem_toFinset, List.mem_toFinset, Finset.mem_sort, List.mem_range'_1,
      hS, Finset.mem_Icc]
    omega
  · exact Finset.sort_sorted _ _
  · exact List.Pairwise.imp le_of_lt (List.pairwise_lt_range' k (n + 1))

/-- C7: on a g2o input whose pose IDs form a consecutive range starting
at `k > 0`, the loader succeeds, decrements every endpoint pose ID by
`k`, and reports the number of distinct pose IDs; on an input whose pose
IDs do not form a consecutive range, loading aborts. -/
theorem read_g2o_file_reindexing :
    (∀ (ms : List RelativeSEMeasurement) (k n : ℕ),
      0 < k → k + n < W64 →
      poseIdSet ms = Finset.Icc k (k + n) →
      read_g2o_file ms = some (ms.map (decrementPoseIds k), n + 1)) ∧
    (∀ ms : List RelativeSEMeasurement,
      (∀ m ∈ ms, m.p1 < W64 ∧ m.p2 < W64) →
      (∀ a b : ℕ, poseIdSet ms ≠ Finset.Icc a b) →
      read_g2o_file ms = none) := by
  constructor
  · intro ms k n hk hlt hS
    have hne : poseIdSet ms ≠ ∅ := by
      rw [hS]
      exact Finset.nonempty_iff_ne_empty.mp (Finset.nonempty_Icc.mpr (by omega))
    unfold read_g2o_file
    rw [dif_neg hne]
    have hmin : (poseIdSet ms).min' (Finset.nonempty_of_ne_empty hne) = k := by
      apply le_antisymm
      · apply Finset.min'_le
        rw [hS]
        exact Finset.mem_Icc.mpr ⟨le_refl k, by omega⟩
      · apply Finset.le_min'
        intro y hy
        rw [hS, Finset.mem_Icc] at hy
        exact hy.1
    have hsort := sort_Icc_eq_range' hS
    have hcheck : consecCheck k (List.range' k (n + 1)) = true := by
      unfold consecCheck
      have hW1 : 0 < W64 := W64_pos
      have h1 : k + (W64 - 1) = (k - 1) + W64 := by omega
      have hkm : (k + (W64 - 1)) % W64 = k - 1 := by
        rw [h1, Nat.add_mod_right, Nat.mod_eq_of_lt (by omega)]
      rw [hkm]
      exact consecGo_range' (n + 1) k hk (by omega)
    simp only [hmin, hsort, hcheck, if_true]
    rw [if_pos (by omega : k ≠ 0), hS, Nat.card_Icc]
    have hcard : k + n + 1 - k = n + 1 := by omega
    rw [hcard]
  · intro ms hb hnot
    unfold read_g2o_file
    by_cases hS : poseIdSet ms = ∅
    · rw [dif_pos hS]
    · rw [dif_neg hS]
      set hne := Finset.nonempty_of_ne_empty hS with hne_def
      cases hc : consecCheck ((poseIdSet ms).min' hne)
        ((poseIdSet ms).sort (· ≤ ·))
      · simp only [hc, Bool.false_eq_true, if_false]
      · exfalso
        have hLlt : ∀ x ∈ (poseIdSet ms).sort (· ≤ ·), x < W64 := by
          intro x hx
          exact poseIdSet_lt hb x ((Finset.mem_sort _).mp hx)
        have hlen : ((poseIdSet ms).sort (· ≤ ·)).length = (poseIdSet ms).card :=
          Finset.length_sort (· ≤ ·)
        have hpos : 0 < (poseIdSet ms).card := Finset.card_pos.mpr hne
        obtain ⟨y, ys, hL⟩ : ∃ y ys, (poseIdSet ms).sort (· ≤ ·) = y :: ys := by
          cases hcase : (poseIdSet ms).sort (· ≤ ·) with
          | nil =>
            rw [hcase] at hlen
            simp at hlen
            omega
          | cons y ys => exact ⟨y, ys, rfl⟩
        have hmlt : (poseIdSet ms).min' hne < W64 :=
          poseIdSet_lt hb _ (Finset.min'_mem _ _)
        rw [hL] at hc
        unfold consecCheck consecGo at hc
        split at hc
        next hcond =>
          have hylt : y < W64 := by
            apply hLlt
            rw [hL]
            exact List.mem_cons_self y ys
          have hymin : y = (poseIdSet ms).min' hne := by
            rw [Nat.mod_eq_of_lt hylt] at hcond
            rw [W64_eq] at hcond hylt hmlt
            omega
          have hchain : List.Chain (· < ·) y ys := by
            have hsorted := Finset.sort_sorted_lt (poseIdSet ms)
            rw [hL] at hsorted
            exact List.chain_iff_pairwise.mpr hsorted
          have hys : ys = List.range' (y + 1) ys.length := by
            apply consecGo_chain ys y hylt
            · intro x hx
              apply hLlt
              rw [hL]
              exact List.mem_cons_of_mem _ hx
            · exact hchain
            · rwa [Nat.mod_eq_of_lt hylt] at hc
          apply hnot y (y + ys.length)
          ext x
          rw [show (x ∈ poseIdSet ms) = (x ∈ (poseIdSet ms).sort (· ≤ ·)) from
            (propext (Finset.mem_sort _)).symm, hL, hys, Finset.mem_Icc,
            List.mem_cons, List.mem_range'_1, List.length_range']
          omega
        next hcond => exact Bool.noConfusion hc

/-- Concrete measurement used by the C7 witness. -/
def g2oMeas (p q : ℕ) : RelativeSEMeasurement where
  r1 := 0
  r2 := 0
  p1 := p
  p2 := q
  tau := 1
  kappa := 1
  weight := 1
  fixedWeight := decide (p + 1 = q)

/-- Measurement list with pose IDs `{5, 6, 7, 8}`. -/
def msShifted : List RelativeSEMeasurement :=
  [g2oMeas 5 6, g2oMeas 6 7, g2oMeas 7 8]

/-- Measurement list with the non-consecutive pose IDs `{5, 7}`. -/
def msGapped : List RelativeSEMeasurement := [g2oMeas 5 7]

/-- Witness for C7: the shifted input `{5,6,7,8}` is reindexed from
zero with `num_poses = 4`, and the gapped input `{5,7}` aborts. -/
theorem read_g2o_file_reindexing_witness :
    (0 < 5 ∧ 5 + 3 < W64 ∧ poseIdSet msShifted = Finset.Icc 5 (5 + 3) ∧
      read_g2o_file msShifted =
        some (msShifted.map (decrementPoseIds 5), 3 + 1)) ∧
    ((∀ m ∈ msGapped, m.p1 < W64 ∧ m.p2 < W64) ∧
      (∀ a b : ℕ, poseIdSet msGapped ≠ Finset.Icc a b) ∧
      read_g2o_file msGapped = none) := by
  have hnot : ∀ a b : ℕ, poseIdSet msGapped ≠ Finset.Icc a b := by
    intro a b hEq
    have h5 : 5 ∈ poseIdSet msGapped := by decide
    have h7 : 7 ∈ poseIdSet msGapped := by decide
    have h6 : 6 ∉ poseIdSet msGapped := by decide
    rw [hEq, Finset.mem_Icc] at h5 h7 h6
    omega
  refine ⟨⟨by norm_num, by norm_num [W64], by decide, ?_⟩, ⟨by decide, hnot, ?_⟩⟩
  · exact read_g2o_file_reindexing.1 msShifted 5 3 (by norm_num)
      (by norm_num [W64]) (by decide)
  · exact read_g2o_file_reindexing.2 msGapped (by decide) hnot

/-! ## Claim C8: idempotence of the Stiefel projection -/

theorem UVt_orthonormal {d e : ℕ} {U : Matrix (Fin d) (Fin e) ℚ}
    {V : Matrix (Fin e) (Fin e) ℚ} (hU : Uᵀ * U = 1) (hV : Vᵀ * V = 1) :
    (U * Vᵀ)ᵀ * (U * Vᵀ) = 1 := by
  rw [Matrix.transpose_mul, Matrix.transpose_transpose, Matrix.mul_assoc,
    ← Matrix.mul_assoc Uᵀ U, hU, Matrix.one_mul]
  exact Matrix.mul_eq_one_comm.mp hV

theorem diag_nonneg_sq_one {e : ℕ} {S : Matrix (Fin e) (Fin e) ℚ}
    (hdiag : ∀ i j, i ≠ j → S i j = 0) (hnn : ∀ i, 0 ≤ S i i)
    (hSS : Sᵀ * S = 1) : S = 1 := by
  ext i k
  by_cases hik : i = k
  · subst hik
    have hsum : (Sᵀ * S) i i = S i i * S i i := by
      rw [Matrix.mul_apply]
      rw [Finset.sum_eq_single i]
      · rw [Matrix.transpose_apply]
      · intro b _ hb
        rw [Matrix.transpose_apply, hdiag b i hb, mul_zero]
      · intro hni
        exact absurd (Finset.mem_univ i) hni
    have hone : S i i * S i i = 1 := by
      rw [← hsum, hSS, Matrix.one_apply_eq]
    rcases mul_self_eq_one_iff.mp hone with h1 | h1
    · rw [h1, Matrix.one_apply_eq]
    · have := hnn i
      rw [h1] at this
      norm_num at this
  · rw [hdiag i k hik, Matrix.one_apply_ne hik]

/-- C8: projecting twice onto the Stiefel manifold equals projecting
once — for any thin SVDs chosen by the numerical routine at the two
calls. -/
theorem stiefel_projection_idempotent {r d : ℕ} (hrd : d ≤ r)
    {M : Matrix (Fin r) (Fin d) ℚ} (f : ThinSVD r d M)
    (g : ThinSVD r d (projectToStiefelManifold f)) :
    projectToStiefelManifold g = projectToStiefelManifold f := by
  have hW : (projectToStiefelManifold f)ᵀ * projectToStiefelManifold f = 1 :=
    UVt_orthonormal f.hU f.hV
  have hfac := g.factor
  have hSS : g.Sᵀ * g.S = 1 := by
    have h1 : (g.U * g.S * g.Vᵀ)ᵀ * (g.U * g.S * g.Vᵀ) = 1 := by
      rw [← hfac]
      exact hW
    simp only [Matrix.transpose_mul, Matrix.transpose_transpose,
      Matrix.mul_assoc] at h1
    rw [← Matrix.mul_assoc g.Uᵀ g.U, g.hU, Matrix.one_mul] at h1
    have h3 := congrArg (fun Z => g.Vᵀ * Z * g.V) h1
    dsimp only [] at h3
    rw [← Matrix.mul_assoc g.Vᵀ g.V, g.hV, Matrix.one_mul, Matrix.mul_one,
      g.hV] at h3
    have h4 : g.Sᵀ * (g.S * (g.Vᵀ * g.V)) = 1 := by
      simpa [Matrix.mul_assoc] using h3
    rw [g.hV, Matrix.mul_one] at h4
    exact h4
  have hS1 : g.S = 1 := diag_nonneg_sq_one g.hS_diag g.hS_nonneg hSS
  show g.U * g.Vᵀ = projectToStiefelManifold f
  conv_rhs => rw [hfac]
  rw [hS1, Matrix.mul_one]

/-- Concrete Stiefel column used by the C8 witness. -/
def stiefelColumn : Matrix (Fin 2) (Fin 1) ℚ := !![1; 0]

/-- A concrete thin SVD of `stiefelColumn`. -/
def stiefelColumnSVD : ThinSVD 2 1 stiefelColumn where
  U := stiefelColumn
  S := 1
  V := 1
  hU := by
    ext i k
    fin_cases i
    fin_cases k
    simp [stiefelColumn, Matrix.mul_apply, Fin.sum_univ_two]
  hV := by simp
  hS_diag := fun i j hij => absurd (Subsingleton.elim i j) hij
  hS_nonneg := fun i => by simp [Matrix.one_apply_eq]
  factor := by simp

/-- A concrete thin SVD of the projection of `stiefelColumn`. -/
def stiefelColumnSVD2 : ThinSVD 2 1 (projectToStiefelManifold stiefelColumnSVD) where
  U := stiefelColumn
  S := 1
  V := 1
  hU := stiefelColumnSVD.hU
  hV := by simp
  hS_diag := fun i j hij => absurd (Subsingleton.elim i j) hij
  hS_nonneg := fun i => by simp [Matrix.one_apply_eq]
  factor := by simp [projectToStiefelManifold, stiefelColumnSVD]

/-- Witness for C8 at a concrete 2×1 matrix. -/
theorem stiefel_projection_idempotent_witness :
    1 ≤ 2 ∧
    projectToStiefelManifold stiefelColumnSVD2 =
      projectToStiefelManifold stiefelColumnSVD :=
  ⟨by norm_num,
    stiefel_projection_idempotent (by norm_num) stiefelColumnSVD stiefelColumnSVD2⟩

/-! ## Claim C5: trajectory extraction -/

theorem det_pm_one_of_orthogonal {d : ℕ} {U : Matrix (Fin d) (Fin d) ℚ}
    (hU : Uᵀ * U = 1) : U.det = 1 ∨ U.det = -1 := by
  have h : U.det * U.det = 1 := by
    have := congrArg Matrix.det hU
    rwa [Matrix.det_mul, Matrix.det_transpose, Matrix.det_one] at this
  exact mul_self_eq_one_iff.mp h

theorem flipLast_transpose (d : ℕ) : (flipLast d)ᵀ = flipLast d :=
  Matrix.diagonal_transpose _

theorem flipLast_mul_self (d : ℕ) : flipLast d * flipLast d = 1 := by
  unfold flipLast
  rw [Matrix.diagonal_mul_diagonal]
  have : (fun j : Fin d => (if (j : ℕ) = d - 1 then (-1 : ℚ) else 1) *
      (if (j : ℕ) = d - 1 then (-1 : ℚ) else 1)) = fun _ => 1 := by
    funext j
    split_ifs <;> norm_num
  rw [this, Matrix.diagonal_one]

theorem flipLast_det {d : ℕ} (hd : 0 < d) : (flipLast d).det = -1 := by
  unfold flipLast
  rw [Matrix.det_diagonal]
  rw [Finset.prod_eq_single (⟨d - 1, by omega⟩ : Fin d)]
  · simp
  · intro j _ hj
    rw [if_neg]
    intro hc
    exact hj (Fin.ext hc)
  · intro hni
    exact absurd (Finset.mem_univ _) hni

/-- Every output of `projectToRotationGroup` lies in `SO(d)`: it is
orthogonal with determinant `+1`. -/
theorem projectToRotationGroup_isSOd {d : ℕ} (hd : 0 < d)
    {M : Matrix (Fin d) (Fin d) ℚ} (f : FullSVD d M) :
    IsSOd (projectToRotationGroup f) := by
  have hdetU := det_pm_one_of_orthogonal f.hU
  have hdetV := det_pm_one_of_orthogonal f.hV
  unfold projectToRotationGroup
  split
  · next hpos =>
    refine ⟨UVt_orthonormal f.hU f.hV, ?_⟩
    rw [Matrix.det_mul, Matrix.det_transpose]
    rcases hdetU with h1 | h1 <;> rcases hdetV with h2 | h2 <;>
      rw [h1, h2] at hpos ⊢ <;> norm_num at hpos ⊢
  · next hneg =>
    have hU' : (f.U * flipLast d)ᵀ * (f.U * flipLast d) = 1 := by
      rw [Matrix.transpose_mul, flipLast_transpose, Matrix.mul_assoc,
        ← Matrix.mul_assoc f.Uᵀ, f.hU, Matrix.one_mul, flipLast_mul_self]
    refine ⟨UVt_orthonormal hU' f.hV, ?_⟩
    rw [Matrix.det_mul, Matrix.det_transpose, Matrix.det_mul, flipLast_det hd]
    rcases hdetU with h1 | h1 <;> rcases hdetV with h2 | h2 <;>
      rw [h1, h2] at hneg ⊢ <;> norm_num at hneg ⊢

/-- C5 (amended): both trajectory extraction functions return rotation
blocks in `SO(d)`; `getTrajectoryInLocalFrame` zeroes the first pose's
translation unconditionally, while `getTrajectoryInGlobalFrame`
subtracts the anchor translation `Yaᵀ pa`, so its first translation is
zero exactly under the condition `Yaᵀ pa = Yaᵀ p₀` (in particular when
the global anchor is the agent's own first lifted pose). -/
theorem trajectory_rotations_and_anchor {r d n : ℕ} (hd : 0 < d)
    (X : LiftedPoseArrayQ r d n)
    (svdL : ∀ i : Fin (n + 1), FullSVD d ((X.rot 0)ᵀ * X.rot i))
    (Ya : Matrix (Fin r) (Fin d) ℚ) (pa : Fin r → ℚ)
    (svdG : ∀ i : Fin (n + 1), FullSVD d (Yaᵀ * X.rot i)) :
    (∀ i, IsSOd ((getTrajectoryInLocalFrame X svdL).rot i)) ∧
    (getTrajectoryInLocalFrame X svdL).trans 0 = 0 ∧
    (∀ i, IsSOd ((getTrajectoryInGlobalFrame X Ya pa svdG).rot i)) ∧
    ((getTrajectoryInGlobalFrame X Ya pa svdG).trans 0 = 0 ↔
      Yaᵀ.mulVec pa = Yaᵀ.mulVec (X.trans 0)) := by
  refine ⟨fun i => projectToRotationGroup_isSOd hd (svdL i), ?_,
    fun i => projectToRotationGroup_isSOd hd (svdG i), ?_⟩
  · show (X.rot 0)ᵀ.mulVec (X.trans 0) - (X.rot 0)ᵀ.mulVec (X.trans 0) = 0
    exact sub_self _
  · show Yaᵀ.mulVec (X.trans 0) - Yaᵀ.mulVec pa = 0 ↔
      Yaᵀ.mulVec pa = Yaᵀ.mulVec (X.trans 0)
    rw [sub_eq_zero]
    exact eq_comm

/-- One-pose lifted array with identity rotation and zero translation
(`r = d = 2`), used by the C5 counterexample and witness. -/
def onePoseArray : LiftedPoseArrayQ 2 2 0 where
  rot := fun _ => 1
  trans := fun _ => 0

/-- A concrete full SVD of the identity rotation block, as produced for
every rotation block appearing in the C5 counterexample and witness. -/
def idFullSVD : FullSVD 2 ((1 : Matrix (Fin 2) (Fin 2) ℚ)ᵀ * 1) where
  U := 1
  S := 1
  V := 1
  hU := by simp
  hV := by simp
  hS_diag := fun i j hij => Matrix.one_apply_ne hij
  hS_nonneg := fun i => by simp [Matrix.one_apply_eq]
  factor := by simp

/-- Counterexample to C5 as stated: with the global anchor
`Xa = [I | (1,0)]` and the agent's single pose `[I | 0]`, the
global-frame trajectory has first translation `-(1,0) ≠ 0`. -/
theorem globalFrame_first_translation_nonzero :
    (getTrajectoryInGlobalFrame onePoseArray 1 ![1, 0]
        (fun _ => idFullSVD)).trans 0 ≠ 0 := by
  intro hcon
  have h0 := congrFun hcon 0
  rw [show (getTrajectoryInGlobalFrame onePoseArray 1 ![1, 0]
      (fun _ => idFullSVD)).trans 0 0 =
      ((1 : Matrix (Fin 2) (Fin 2) ℚ)ᵀ.mulVec 0 -
        (1 : Matrix (Fin 2) (Fin 2) ℚ)ᵀ.mulVec ![1, 0]) 0 from rfl] at h0
  rw [Matrix.transpose_one, Matrix.mulVec_zero, Matrix.one_mulVec] at h0
  norm_num at h0

/-- Witness for the amended C5 at a concrete one-pose array whose
anchor coincides with its first pose. -/
theorem trajectory_rotations_and_anchor_witness :
    (0 < 2) ∧
    ((∀ i, IsSOd ((getTrajectoryInLocalFrame onePoseArray
        (fun _ => idFullSVD)).rot i)) ∧
      (getTrajectoryInLocalFrame onePoseArray (fun _ => idFullSVD)).trans 0 = 0 ∧
      (∀ i, IsSOd ((getTrajectoryInGlobalFrame onePoseArray 1 0
        (fun _ => idFullSVD)).rot i)) ∧
      ((getTrajectoryInGlobalFrame onePoseArray 1 0
          (fun _ => idFullSVD)).trans 0 = 0 ↔
        (1 : Matrix (Fin 2) (Fin 2) ℚ)ᵀ.mulVec 0 =
          (1 : Matrix (Fin 2) (Fin 2) ℚ)ᵀ.mulVec (onePoseArray.trans 0))) :=
  ⟨by norm_num,
    trajectory_rotations_and_anchor (by norm_num) onePoseArray
      (fun _ => idFullSVD) 1 0 (fun _ => idFullSVD)⟩

/-! ## Helper lemmas about the iteration engine -/

theorem updateX_preserves {env : Env Mat RC} {a : PGOAgent Mat RC} {d acc s : Bool}
    {b : PGOAgent Mat RC} (h : updateX env a d acc = some (s, b)) :
    b.mParams = a.mParams ∧ b.mState = a.mState := by
  unfold updateX at h
  cases d <;> cases acc <;> simp at h
  · obtain ⟨-, hb⟩ := h
    subst hb
    exact ⟨rfl, rfl⟩
  · obtain ⟨-, hb⟩ := h
    subst hb
    exact ⟨rfl, rfl⟩
  · obtain ⟨-, h⟩ := h
    split at h <;> (cases h; exact ⟨rfl, rfl⟩)
  · obtain ⟨-, -, h⟩ := h
    split at h <;> (cases h; exact ⟨rfl, rfl⟩)

theorem updateX_nonaccel_total (env : Env Mat RC) (a : PGOAgent Mat RC) (d : Bool)
    (ha : a.mState = PGOAgentState.INITIALIZED) :
    ∃ s b, updateX env a d false = some (s, b) := by
  cases d
  · exact ⟨true, a, by simp [updateX]⟩
  · unfold updateX
    simp only [ha]
    simp only [Bool.true_eq_false, if_false, Bool.false_eq_true, false_and, ne_eq,
      not_true_eq_false, reduceIte]
    split
    · exact ⟨false, _, rfl⟩
    · exact ⟨true, _, rfl⟩

theorem initAcceleration_preserves {a b : PGOAgent Mat RC}
    (h : initAcceleration a = some b) :
    b.mParams = a.mParams ∧ b.mState = a.mState := by
  unfold initAcceleration at h
  split at h
  · split at h <;> (cases h; exact ⟨rfl, rfl⟩)
  · cases h

theorem updateLoopClosuresWeights_preserves {env : Env Mat RC} {a b : PGOAgent Mat RC}
    (h : updateLoopClosuresWeights env a = some b) :
    b.mParams = a.mParams ∧ b.mState = a.mState := by
  unfold updateLoopClosuresWeights at h
  split at h
  · cases h; exact ⟨rfl, rfl⟩
  · cases h

theorem gncStep_preserves {env : Env Mat RC} {a b : PGOAgent Mat RC}
    (h : gncStep env a = some b) :
    b.mParams = a.mParams ∧ b.mState = a.mState := by
  unfold gncStep at h
  split at h
  · try dsimp only [] at h
    obtain ⟨a1, h1, h⟩ := Option.bind_eq_some.mp h
    obtain ⟨hp1, hs1⟩ := updateLoopClosuresWeights_preserves h1
    try dsimp only [] at h
    split at h
    · obtain ⟨a2, h2, h⟩ := Option.bind_eq_some.mp h
      cases h2
      try dsimp only [] at h
      split at h
      · obtain ⟨hp3, hs3⟩ := initAcceleration_preserves h
        exact ⟨by rw [hp3]; exact hp1, by rw [hs3]; exact hs1⟩
      · cases h
        exact ⟨hp1, hs1⟩
    · split at h
      · obtain ⟨a2, h2, h⟩ := Option.bind_eq_some.mp h
        cases h2
      · obtain ⟨a2, h2, h⟩ := Option.bind_eq_some.mp h
        cases h2
        try dsimp only [] at h
        split at h
        · obtain ⟨hp3, hs3⟩ := initAcceleration_preserves h
          exact ⟨by rw [hp3]; exact hp1, by rw [hs3]; exact hs1⟩
        · cases h
          exact ⟨hp1, hs1⟩
  · cases h; exact ⟨rfl, rfl⟩

theorem updateGamma_preserves {env : Env Mat RC} {a b : PGOAgent Mat RC}
    (h : updateGamma env a = some b) :
    b.mParams = a.mParams ∧ b.mState = a.mState := by
  unfold updateGamma at h
  split at h
  · cases h; exact ⟨rfl, rfl⟩
  · cases h

theorem updateAlpha_preserves {a b : PGOAgent Mat RC}
    (h : updateAlpha a = some b) :
    b.mParams = a.mParams ∧ b.mState = a.mState := by
  unfold updateAlpha at h
  split at h
  · cases h; exact ⟨rfl, rfl⟩
  · cases h

theorem updateY_preserves {env : Env Mat RC} {a b : PGOAgent Mat RC}
    (h : updateY env a = some b) :
    b.mParams = a.mParams ∧ b.mState = a.mState := by
  unfold updateY at h
  split at h
  · cases h; exact ⟨rfl, rfl⟩
  · cases h

theorem updateV_preserves {env : Env Mat RC} {a b : PGOAgent Mat RC}
    (h : updateV env a = some b) :
    b.mParams = a.mParams ∧ b.mState = a.mState := by
  unfold updateV at h
  split at h
  · cases h; exact ⟨rfl, rfl⟩
  · cases h

theorem restartNesterovAcceleration_preserves {env : Env Mat RC} {a b : PGOAgent Mat RC}
    {d : Bool} (h : restartNesterovAcceleration env a d = some b) :
    b.mParams = a.mParams ∧ b.mState = a.mState := by
  unfold restartNesterovAcceleration at h
  split at h
  · obtain ⟨⟨s, a2⟩, h2, h⟩ := Option.bind_eq_some.mp h
    obtain ⟨hp2, hs2⟩ := updateX_preserves h2
    cases h
    exact ⟨hp2, hs2⟩
  · cases h; exact ⟨rfl, rfl⟩

theorem iterOptStep_preserves {env : Env Mat RC} {a b : PGOAgent Mat RC}
    {d s : Bool} (h : iterOptStep env a d = some (s, b)) :
    b.mParams = a.mParams ∧ b.mState = a.mState := by
  unfold iterOptStep at h
  split at h
  · try dsimp only [] at h
    obtain ⟨a1, h1, h⟩ := Option.bind_eq_some.mp h
    try dsimp only [] at h
    obtain ⟨a2, h2, h⟩ := Option.bind_eq_some.mp h
    try dsimp only [] at h
    obtain ⟨a3, h3, h⟩ := Option.bind_eq_some.mp h
    try dsimp only [] at h
    obtain ⟨⟨s4, a4⟩, h4, h⟩ := Option.bind_eq_some.mp h
    try dsimp only [] at h
    obtain ⟨a5, h5, h⟩ := Option.bind_eq_some.mp h
    try dsimp only [] at h
    have q1 := updateGamma_preserves h1
    have q2 := updateAlpha_preserves h2
    have q3 := updateY_preserves h3
    have q4 := updateX_preserves h4
    have q5 := updateV_preserves h5
    split at h
    · obtain ⟨a6, h6, h⟩ := Option.bind_eq_some.mp h
      cases h
      have q6 := restartNesterovAcceleration_preserves h6
      exact ⟨q6.1.trans (q5.1.trans (q4.1.trans (q3.1.trans (q2.1.trans q1.1)))),
        q6.2.trans (q5.2.trans (q4.2.trans (q3.2.trans (q2.2.trans q1.2))))⟩
    · obtain ⟨a6, h6, h⟩ := Option.bind_eq_some.mp h
      cases h6
      cases h
      exact ⟨q5.1.trans (q4.1.trans (q3.1.trans (q2.1.trans q1.1))),
        q5.2.trans (q4.2.trans (q3.2.trans (q2.2.trans q1.2)))⟩
  · try dsimp only [] at h
    obtain ⟨⟨s1, a1⟩, h1, h⟩ := Option.bind_eq_some.mp h
    try dsimp only [] at h
    cases h
    have q1 := updateX_preserves h1
    cases d
    · exact q1
    · exact ⟨q1.1, q1.2⟩

/-! ## Claim C3: termination status flag -/

theorem readyToTerminate_chain_iff (s : Bool) (rc tol ratio minR : ℚ) :
    (if ratio < minR then false
     else if rc > tol then false
     else if s = false then false else true) = true ↔
      (s = true ∧ rc ≤ tol ∧ minR ≤ ratio) := by
  split_ifs with h1 h2 h3
  · simp only [Bool.false_eq_true, false_iff]
    rintro ⟨-, -, hr⟩
    exact absurd h1 (not_lt.mpr hr)
  · simp only [Bool.false_eq_true, false_iff]
    rintro ⟨-, hc, -⟩
    exact absurd h2 (not_lt.mpr hc)
  · simp only [Bool.false_eq_true, false_iff]
    rintro ⟨hs, -, -⟩
    rw [h3] at hs
    exact Bool.false_ne_true hs
  · exact iff_of_true rfl ⟨by simpa using h3, not_lt.mp h2, not_lt.mp h1⟩

/-- C3: on every `iterate(doOptimization = true)` call in the
`INITIALIZED` state, the resulting status has `readyToTerminate` set iff
the optimization step succeeded, the relative change is at most
`relChangeTol`, and the converged-loop-closure fraction is at least
`robustOptMinConvergenceRatio`. -/
theorem iterate_readyToTerminate_iff (env : Env Mat RC) (a : PGOAgent Mat RC)
    (ha : a.mState = PGOAgentState.INITIALIZED) (s : Bool) (a' : PGOAgent Mat RC)
    (h : iterate env a true = some (s, a')) :
    a'.mStatus.readyToTerminate = true ↔
      (s = true ∧ a'.mStatus.relativeChange ≤ a.mParams.relChangeTol ∧
        a.mParams.robustOptMinConvergenceRatio ≤
          convergedLoopClosureRatio a'.mPoseGraph) := by
  unfold iterate at h
  try dsimp only [] at h
  obtain ⟨a1, h1, h⟩ := Option.bind_eq_some.mp h
  have hp1 : a1.mParams = a.mParams := (gncStep_preserves h1).1
  have hs1 : a1.mState = a.mState := (gncStep_preserves h1).2
  try dsimp only [] at h
  split at h
  · try dsimp only [] at h
    obtain ⟨⟨s2, a2⟩, h2, h⟩ := Option.bind_eq_some.mp h
    try dsimp only [] at h
    try simp only [if_true] at h
    simp only [Option.some.injEq, Prod.mk.injEq] at h
    obtain ⟨hse, hae⟩ := h
    subst hse
    subst hae
    have hq : a2.mParams = a1.mParams := (iterOptStep_preserves h2).1
    have hP : a2.mParams = a.mParams := hq.trans hp1
    simp only [statusUpdate]
    simp only [hP]
    exact readyToTerminate_chain_iff s2 (env.averageTranslationDistance a2.X a2.XPrev)
      a.mParams.relChangeTol (convergedLoopClosureRatio a2.mPoseGraph)
      a.mParams.robustOptMinConvergenceRatio
  · exact absurd (hs1.trans ha) (by assumption)

/-! ## Claim C2: reset -/

/-- C2: after any call to `reset()`, the state is `WAIT_FOR_DATA`, the
instance number is one greater than before, the iteration number is 0,
the neighbor pose dictionaries and the team status map are empty, and
the lifting matrix `YLift` is unchanged. -/
theorem reset_spec (env : Env Mat RC) (a : PGOAgent Mat RC) :
    (reset env a).mState = PGOAgentState.WAIT_FOR_DATA ∧
    (reset env a).mInstanceNumber = a.mInstanceNumber + 1 ∧
    (reset env a).mIterationNumber = 0 ∧
    (reset env a).neighborPoseDict = [] ∧
    (reset env a).neighborAuxPoseDict = [] ∧
    (reset env a).mTeamStatus = [] ∧
    (reset env a).YLift = a.YLift :=
  ⟨rfl, rfl, rfl, rfl, rfl, rfl, rfl⟩

/-! ## Claim C10: determinism of the robot-0 lifting matrix -/

/-- C10: any two `PGOAgent` instances constructed with ID 0 and the same
dimensions `(r, d)` hold identical lifting matrices, namely the value of
`fixedStiefelVariable(d, r)`, which redraws from the constant seed 1 on
every call. -/
theorem robot0_lifting_matrix_deterministic (env : Env Mat RC) (rc1 rc2 : RC)
    (p1 p2 : PGOAgentParameters) (hr : p1.r = p2.r) (hd : p1.d = p2.d) :
    (mkPGOAgent env rc1 0 p1).YLift = (mkPGOAgent env rc2 0 p2).YLift ∧
    (mkPGOAgent env rc1 0 p1).YLift =
      some (fixedStiefelVariable env p1.d p1.r) := by
  constructor
  · simp [mkPGOAgent, setLiftingMatrix, hr, hd]
  · simp [mkPGOAgent, setLiftingMatrix]

/-! ## Claim C4: updateX failure path -/

/-- C4: when the pose graph's data matrices cannot be constructed,
`updateX(doOptimization = true, acceleration = false)` returns `false`
and leaves the iterate `X` unchanged. -/
theorem updateX_data_matrix_failure_leaves_X (env : Env Mat RC) (a : PGOAgent Mat RC)
    (ha : a.mState = PGOAgentState.INITIALIZED)
    (hfail : env.constructDataMatricesOk
      (a.mPoseGraph.setNeighborPoses a.neighborPoseDict) = false) :
    ∃ a', updateX env a true false = some (false, a') ∧ a'.X = a.X := by
  refine ⟨{ a with mPoseGraph := a.mPoseGraph.setNeighborPoses a.neighborPoseDict },
    ?_, rfl⟩
  unfold updateX
  simp [ha, hfail]

/-! ## Claim C6: Nesterov restart -/

/-- C6: on a restart iteration (`shouldRestart` holds with the agent
`INITIALIZED`), `restartNesterovAcceleration` completes with
`γ = α = 0` and `V = Y = X`, where `X` is the result of restoring
`XPrev` and re-running one non-accelerated `updateX` from it. -/
theorem restartNesterov_spec (env : Env Mat RC) (a : PGOAgent Mat RC) (doOpt : Bool)
    (hres : shouldRestart a = true) (ha : a.mState = PGOAgentState.INITIALIZED) :
    ∃ a', restartNesterovAcceleration env a doOpt = some a' ∧
      a'.gamma = 0 ∧ a'.alpha = 0 ∧ a'.V = a'.X ∧ a'.Y = a'.X ∧
      ∃ s b, updateX env { a with X := a.XPrev } doOpt false = some (s, b) ∧
        a'.X = b.X := by
  have haccel : a.mParams.acceleration = true := by
    unfold shouldRestart at hres
    by_contra hcon
    simp only [Bool.not_eq_true] at hcon
    rw [hcon] at hres
    simp at hres
  obtain ⟨s, b, hsb⟩ := updateX_nonaccel_total env { a with X := a.XPrev } doOpt ha
  refine ⟨{ b with V := b.X, Y := b.X, gamma := 0, alpha := 0 }, ?_, rfl, rfl, rfl, rfl,
    s, b, hsb, rfl⟩
  unfold restartNesterovAcceleration
  split
  · try dsimp only []
    rw [hsb]
    rfl
  · exact absurd (⟨haccel, ha⟩ :
      a.mParams.acceleration = true ∧ a.mState = PGOAgentState.INITIALIZED)
      (by assumption)

/-! ## Claim C9: neighbor pose cache invariant -/

theorem initAcceleration_fields {a b : PGOAgent Mat RC}
    (h : initAcceleration a = some b) :
    b.mPoseGraph = a.mPoseGraph ∧ b.mTeamStatus = a.mTeamStatus ∧
    b.neighborPoseDict = a.neighborPoseDict ∧
    b.neighborAuxPoseDict = a.neighborAuxPoseDict ∧ b.mState = a.mState := by
  unfold initAcceleration at h
  split at h
  · split at h <;> (cases h; exact ⟨rfl, rfl, rfl, rfl, rfl⟩)
  · exact Option.noConfusion h

theorem initInGlobalFrame_fields {env : Env Mat RC} {a b : PGOAgent Mat RC} {T : Mat}
    (h : initInGlobalFrame env a T = some b) :
    b.mPoseGraph = a.mPoseGraph ∧ b.mTeamStatus = a.mTeamStatus ∧
    b.neighborPoseDict = [] ∧ b.neighborAuxPoseDict = [] := by
  unfold initInGlobalFrame at h
  obtain ⟨yl, hyl, h⟩ := Option.bind_eq_some.mp h
  try dsimp only [] at h
  obtain ⟨tl, htl, h⟩ := Option.bind_eq_some.mp h
  try dsimp only [] at h
  split at h <;> try split at h
  all_goals
    first
    | (cases h; exact ⟨rfl, rfl, rfl, rfl⟩)
    | (obtain ⟨q1, q2, q3, q4, q5⟩ := initAcceleration_fields h
       exact ⟨q1, q2, q3, q4⟩)

theorem dictInsert_keys {k : PoseID} {v : Mat} {d : List (PoseID × Mat)} {x : PoseID}
    (hx : x ∈ (dictInsert k v d).map Prod.fst) :
    x = k ∨ x ∈ d.map Prod.fst := by
  unfold dictInsert at hx
  simp only [List.map_cons, List.mem_cons] at hx
  rcases hx with h | h
  · exact Or.inl h
  · right
    obtain ⟨p, hp, hpe⟩ := List.mem_map.mp h
    exact List.mem_map.mpr ⟨p, (List.mem_filter.mp hp).1, hpe⟩

theorem savePoses_keys {pub : List PoseID} {nbr : ℕ} {ok : Bool}
    (entries : List (PoseID × Mat)) :
    ∀ (dict : List (PoseID × Mat)) (cnt : ℕ) (dict' : List (PoseID × Mat))
      (cnt' : ℕ),
      savePoses pub nbr ok entries (dict, cnt) = some (dict', cnt') →
      ∀ x ∈ dict'.map Prod.fst,
        x ∈ dict.map Prod.fst ∨ (x.robot_id = nbr ∧ x ∈ pub ∧ ok = true) := by
  induction entries with
  | nil =>
    intro dict cnt dict' cnt' h x hx
    unfold savePoses at h
    cases h
    exact Or.inl hx
  | cons e rest ih =>
    obtain ⟨nID, var⟩ := e
    intro dict cnt dict' cnt' h x hx
    unfold savePoses at h
    split at h
    · exact Option.noConfusion h
    next hrob =>
      try dsimp only [] at h
      split at h
      next hnin => exact ih dict (cnt + 1) dict' cnt' h x hx
      next hin =>
        split at h
        next hok =>
          rcases ih (dictInsert nID var dict) (cnt + 1) dict' cnt' h x hx with
            h1 | h1
          · rcases dictInsert_keys h1 with he | he
            · right
              refine ⟨?_, ?_, hok⟩
              · rw [he]
                exact not_ne_iff.mp hrob
              · rw [he]
                exact not_not.mp hin
            · exact Or.inl he
          · exact Or.inr h1
        next hnok => exact ih dict (cnt + 1) dict' cnt' h x hx

/-- C9: every key newly stored in the neighbor pose caches by
`updateNeighborPoses` / `updateAuxNeighborPoses` is a pose ID of the
named neighbor appearing in the pose graph's `neighborPublicPoseIDs`,
and insertion happens only when this agent and the sending neighbor both
report state `INITIALIZED`; poses failing these conditions are skipped
(they appear in the new cache only if they were already present). -/
theorem neighbor_pose_cache_invariant :
    (∀ (env : Env Mat RC) (a : PGOAgent Mat RC) (neighborID : ℕ)
        (poseDict : List (PoseID × Mat)) (a' : PGOAgent Mat RC),
      updateNeighborPoses env a neighborID poseDict = some a' →
      ∀ x ∈ a'.neighborPoseDict.map Prod.fst,
        x ∈ a.neighborPoseDict.map Prod.fst ∨
          (x.robot_id = neighborID ∧
            x ∈ a'.mPoseGraph.neighborPublicPoses ∧
            a'.mState = PGOAgentState.INITIALIZED ∧
            ∃ st, lookupStatus a.mTeamStatus neighborID = some st ∧
              st.state = PGOAgentState.INITIALIZED)) ∧
    (∀ (a : PGOAgent Mat RC) (neighborID : ℕ) (poseDict : List (PoseID × Mat))
        (a' : PGOAgent Mat RC),
      updateAuxNeighborPoses a neighborID poseDict = some a' →
      ∀ x ∈ a'.neighborAuxPoseDict.map Prod.fst,
        x ∈ a.neighborAuxPoseDict.map Prod.fst ∨
          (x.robot_id = neighborID ∧
            x ∈ a'.mPoseGraph.neighborPublicPoses ∧
            a'.mState = PGOAgentState.INITIALIZED ∧
            ∃ st, lookupStatus a.mTeamStatus neighborID = some st ∧
              st.state = PGOAgentState.INITIALIZED)) := by
  constructor
  · intro env a neighborID poseDict a' h x hx
    unfold updateNeighborPoses at h
    split at h
    · exact Option.noConfusion h
    · split at h
      · cases h
        exact Or.inl hx
      next nbrStatus heq =>
        try dsimp only [] at h
        split at h
        · split at h
          · obtain ⟨amid, hmid, h⟩ := Option.bind_eq_some.mp h
            try dsimp only [] at h
            obtain ⟨⟨dictv, cntv⟩, hsp, h⟩ := Option.bind_eq_some.mp h
            try dsimp only [] at h
            cases h
            obtain ⟨q1, q2, q3, q4⟩ := initInGlobalFrame_fields hmid
            rcases savePoses_keys poseDict amid.neighborPoseDict
                amid.mNumPosesReceived dictv cntv hsp x hx with h1 | h1
            · rw [q3] at h1
              simp at h1
            · obtain ⟨hr, hpub, hok⟩ := h1
              rw [Bool.and_eq_true, decide_eq_true_iff, decide_eq_true_iff] at hok
              exact Or.inr ⟨hr, hpub, hok.1, nbrStatus, heq, hok.2⟩
          · obtain ⟨amid, hmid, h⟩ := Option.bind_eq_some.mp h
            cases hmid
            try dsimp only [] at h
            obtain ⟨⟨dictv, cntv⟩, hsp, h⟩ := Option.bind_eq_some.mp h
            try dsimp only [] at h
            cases h
            rcases savePoses_keys poseDict a.neighborPoseDict
                a.mNumPosesReceived dictv cntv hsp x hx with h1 | h1
            · exact Or.inl h1
            · obtain ⟨hr, hpub, hok⟩ := h1
              rw [Bool.and_eq_true, decide_eq_true_iff, decide_eq_true_iff] at hok
              exact Or.inr ⟨hr, hpub, hok.1, nbrStatus, heq, hok.2⟩
        · obtain ⟨amid, hmid, h⟩ := Option.bind_eq_some.mp h
          cases hmid
          try dsimp only [] at h
          obtain ⟨⟨dictv, cntv⟩, hsp, h⟩ := Option.bind_eq_some.mp h
          try dsimp only [] at h
          cases h
          rcases savePoses_keys poseDict a.neighborPoseDict
              a.mNumPosesReceived dictv cntv hsp x hx with h1 | h1
          · exact Or.inl h1
          · obtain ⟨hr, hpub, hok⟩ := h1
            rw [Bool.and_eq_true, decide_eq_true_iff, decide_eq_true_iff] at hok
            exact Or.inr ⟨hr, hpub, hok.1, nbrStatus, heq, hok.2⟩
  · intro a neighborID poseDict a' h x hx
    unfold updateAuxNeighborPoses at h
    split at h
    · exact Option.noConfusion h
    · split at h
      · exact Option.noConfusion h
      · split at h
        · cases h
          exact Or.inl hx
        next nbrStatus heq =>
          try dsimp only [] at h
          obtain ⟨⟨dictv, cntv⟩, hsp, h⟩ := Option.bind_eq_some.mp h
          try dsimp only [] at h
          cases h
          rcases savePoses_keys poseDict a.neighborAuxPoseDict
              a.mNumPosesReceived dictv cntv hsp x hx with h1 | h1
          · exact Or.inl h1
          · obtain ⟨hr, hpub, hok⟩ := h1
            rw [Bool.and_eq_true, decide_eq_true_iff, decide_eq_true_iff] at hok
            exact Or.inr ⟨hr, hpub, hok.1, nbrStatus, heq, hok.2⟩

/-! ## Concrete instances used to exercise the agent theorems -/

/-- A concrete oracle environment over `Mat = ℕ`, `RC = Unit`. -/
def envNat : Env ℕ Unit where
  newLiftedPoseArray := fun _ _ _ => 0
  optimize := fun _ x => x
  constructDataMatricesOk := fun _ => true
  averageTranslationDistance := fun _ _ => 0
  gammaNext := fun _ g => g
  nesterovY := fun _ x _ => x
  nesterovV := fun _ v _ _ => v
  projectManifold := fun _ _ _ m => m
  rcUpdate := fun rc => rc
  rcReset := fun rc => rc
  reweight := fun _ pg _ _ => pg
  randGen := fun seed d r => seed + 2 * d + 3 * r
  alignment := fun _ _ _ _ _ => none
  applyGlobalTransform := fun _ t => t
  liftData := fun _ t => t

/-- The concrete environment with failing data-matrix construction. -/
def envNatNoData : Env ℕ Unit :=
  { envNat with constructDataMatricesOk := fun _ => false }

/-- Concrete parameters: vanilla L2 configuration. -/
def paramsL2 : PGOAgentParameters where
  d := 3
  r := 5
  numRobots := 2
  acceleration := false
  restartInterval := 30
  robustCostType := RobustCostType.L2
  robustOptInnerIters := 10
  robustOptWarmStart := true
  robustOptMinConvergenceRatio := 0
  robustInitMinInliers := 2
  relChangeTol := 1
  maxNumIters := 1000
  multirobotInit := true

/-- Concrete parameters: accelerated configuration with the same
dimensions. -/
def paramsAccel : PGOAgentParameters :=
  { paramsL2 with acceleration := true, numRobots := 3 }

/-- A concrete initialized vanilla agent. -/
def agentInit : PGOAgent ℕ Unit :=
  { mkPGOAgent envNat () 0 paramsL2 with mState := PGOAgentState.INITIALIZED }

/-- A concrete initialized accelerated agent just before a restart
iteration. -/
def agentAccel : PGOAgent ℕ Unit :=
  { mkPGOAgent envNat () 0 paramsAccel with
    mState := PGOAgentState.INITIALIZED, mIterationNumber := 29 }

/-- The value of `iterate envNat agentInit true`. -/
def agentInitStep : PGOAgent ℕ Unit :=
  { agentInit with
    mIterationNumber := 1
    mPoseGraph := { freshPoseGraph ℕ 0 5 3 with hasDataMatrices := true }
    mPublishPublicPosesRequested := true
    mStatus :=
      { agentID := 0, state := PGOAgentState.INITIALIZED, instanceNumber := 0,
        iterationNumber := 1, readyToTerminate := true, relativeChange := 0 } }

theorem iterate_agentInit_eq :
    iterate envNat agentInit true = some (true, agentInitStep) := by
  unfold iterate gncStep iterOptStep updateX statusUpdate
  norm_num [agentInit, agentInitStep, mkPGOAgent, paramsL2, envNat, freshPoseGraph,
    setLiftingMatrix, fixedStiefelVariable, shouldUpdateLoopClosureWeights,
    shouldRestart, convergedLoopClosureRatio, PoseGraph.setNeighborPoses, numPoses]

/-- Witness for C3 at a concrete agent and environment. -/
theorem iterate_readyToTerminate_iff_witness :
    agentInit.mState = PGOAgentState.INITIALIZED ∧
    iterate envNat agentInit true = some (true, agentInitStep) ∧
    (agentInitStep.mStatus.readyToTerminate = true ↔
      (true = true ∧
        agentInitStep.mStatus.relativeChange ≤ agentInit.mParams.relChangeTol ∧
        agentInit.mParams.robustOptMinConvergenceRatio ≤
          convergedLoopClosureRatio agentInitStep.mPoseGraph)) :=
  ⟨rfl, iterate_agentInit_eq,
    iterate_readyToTerminate_iff envNat agentInit rfl true agentInitStep
      iterate_agentInit_eq⟩

/-- Witness for C4 at a concrete agent and environment. -/
theorem updateX_data_matrix_failure_witness :
    agentInit.mState = PGOAgentState.INITIALIZED ∧
    envNatNoData.constructDataMatricesOk
      (agentInit.mPoseGraph.setNeighborPoses agentInit.neighborPoseDict) = false ∧
    ∃ a', updateX envNatNoData agentInit true false = some (false, a') ∧
      a'.X = agentInit.X :=
  ⟨rfl, rfl, updateX_data_matrix_failure_leaves_X envNatNoData agentInit rfl rfl⟩

/-- Witness for C6 at a concrete agent and environment. -/
theorem restartNesterov_spec_witness :
    shouldRestart agentAccel = true ∧
    agentAccel.mState = PGOAgentState.INITIALIZED ∧
    ∃ a', restartNesterovAcceleration envNat agentAccel true = some a' ∧
      a'.gamma = 0 ∧ a'.alpha = 0 ∧ a'.V = a'.X ∧ a'.Y = a'.X ∧
      ∃ s b, updateX envNat { agentAccel with X := agentAccel.XPrev } true false =
          some (s, b) ∧ a'.X = b.X :=
  ⟨by decide, rfl, restartNesterov_spec envNat agentAccel true (by decide) rfl⟩

/-- Status reported by a concrete initialized neighbor. -/
def statusInit : PGOAgentStatus where
  agentID := 1
  state := PGOAgentState.INITIALIZED
  instanceNumber := 0
  iterationNumber := 0
  readyToTerminate := false
  relativeChange := 0

/-- A concrete agent with one neighbor public pose and an initialized
neighbor status. -/
def agentNbr : PGOAgent ℕ Unit :=
  { agentInit with
    mPoseGraph := { freshPoseGraph ℕ 0 5 3 with
      neighborPublicPoses := [⟨1, 0⟩] }
    mTeamStatus := [(1, statusInit)] }

/-- The same configuration with acceleration enabled. -/
def agentNbrAux : PGOAgent ℕ Unit :=
  { agentNbr with mParams := paramsAccel }

/-- The pose dictionary received from neighbor 1. -/
def poseDictNbr : List (PoseID × ℕ) := [(⟨1, 0⟩, 5)]

/-- Result of `updateNeighborPoses envNat agentNbr 1 poseDictNbr`. -/
def agentNbrAfter : PGOAgent ℕ Unit :=
  { agentNbr with neighborPoseDict := [(⟨1, 0⟩, 5)], mNumPosesReceived := 1 }

/-- Result of `updateAuxNeighborPoses agentNbrAux 1 poseDictNbr`. -/
def agentNbrAuxAfter : PGOAgent ℕ Unit :=
  { agentNbrAux with neighborAuxPoseDict := [(⟨1, 0⟩, 5)], mNumPosesReceived := 1 }

/-- Witness for C9 at a concrete neighbor pose exchange. -/
theorem neighbor_pose_cache_invariant_witness :
    (updateNeighborPoses envNat agentNbr 1 poseDictNbr = some agentNbrAfter ∧
      (⟨1, 0⟩ : PoseID) ∈ agentNbrAfter.neighborPoseDict.map Prod.fst ∧
      ((⟨1, 0⟩ : PoseID) ∈ agentNbr.neighborPoseDict.map Prod.fst ∨
        ((⟨1, 0⟩ : PoseID).robot_id = 1 ∧
          (⟨1, 0⟩ : PoseID) ∈ agentNbrAfter.mPoseGraph.neighborPublicPoses ∧
          agentNbrAfter.mState = PGOAgentState.INITIALIZED ∧
          ∃ st, lookupStatus agentNbr.mTeamStatus 1 = some st ∧
            st.state = PGOAgentState.INITIALIZED))) ∧
    (updateAuxNeighborPoses agentNbrAux 1 poseDictNbr = some agentNbrAuxAfter ∧
      (⟨1, 0⟩ : PoseID) ∈ agentNbrAuxAfter.neighborAuxPoseDict.map Prod.fst ∧
      ((⟨1, 0⟩ : PoseID) ∈ agentNbrAux.neighborAuxPoseDict.map Prod.fst ∨
        ((⟨1, 0⟩ : PoseID).robot_id = 1 ∧
          (⟨1, 0⟩ : PoseID) ∈ agentNbrAuxAfter.mPoseGraph.neighborPublicPoses ∧
          agentNbrAuxAfter.mState = PGOAgentState.INITIALIZED ∧
          ∃ st, lookupStatus agentNbrAux.mTeamStatus 1 = some st ∧
            st.state = PGOAgentState.INITIALIZED))) :=
  ⟨⟨by decide, by decide,
      neighbor_pose_cache_invariant.1 envNat agentNbr 1 poseDictNbr agentNbrAfter
        (by decide) ⟨1, 0⟩ (by decide)⟩,
    ⟨by decide, by decide,
      neighbor_pose_cache_invariant.2 agentNbrAux 1 poseDictNbr agentNbrAuxAfter
        (by decide) ⟨1, 0⟩ (by decide)⟩⟩

/-- Witness for C10 at two concrete parameter sets sharing `(r, d)`. -/
theorem robot0_lifting_matrix_deterministic_witness :
    paramsL2.r = paramsAccel.r ∧ paramsL2.d = paramsAccel.d ∧
    ((mkPGOAgent envNat () 0 paramsL2).YLift =
        (mkPGOAgent envNat () 0 paramsAccel).YLift ∧
      (mkPGOAgent envNat () 0 paramsL2).YLift =
        some (fixedStiefelVariable envNat paramsL2.d paramsL2.r)) :=
  ⟨rfl, rfl,
    robot0_lifting_matrix_deterministic envNat () () paramsL2 paramsAccel rfl rfl⟩

end DPGO

